import Mathlib

/-
Shallow embedding of the sales-transaction and stock-ledger engine of the
bidan-hebat-management server.

Sources embedded:
  server/src/handlers/stock_handlers.ts
    createStockTransaction, createSalesTransaction, cancelSalesTransaction
  server/src/schema.ts (zod input schemas; the positivity checks on
    quantities and payment_received live here)
  server/src/index.ts (tRPC routes: each mutation parses its input with the
    zod schema before invoking the handler)
  server/src/db/schema.ts (table shapes)

The Entity Store (a Postgres database accessed through drizzle) is modelled
as a record of lists, one per table, plus the serial-id counters.  Each
`db.select().where(eq(tbl.id, x))` becomes a `List.find?` on the id,
`db.update ... where(eq(tbl.id, x))` maps over the rows replacing every row
whose id matches, and `db.insert` appends a row carrying the next serial id.
Monetary `numeric(10,2)` columns are modelled as exact rationals (the
string-encoded decimal the database stores); quantities and stock counters
are integers.  Timestamps carry no information used by any claim and are
omitted.  A handler is a function from the database state to a result
paired with the state after all writes it performed; a thrown Error becomes
an `Except.error` carrying the point at which the TypeScript code throws,
paired with the writes performed up to that point (all the embedded
handlers throw before their first write, which is proved, not assumed).
-/

inductive StockTxType
  | IN
  | OUT
deriving DecidableEq

inductive PaymentMethod
  | CASH
  | DEBIT
  | CREDIT
  | TRANSFER
deriving DecidableEq

inductive TxStatus
  | PENDING
  | COMPLETED
  | CANCELLED
deriving DecidableEq

/-- Errors thrown by the handlers (`throw new Error(...)` in the TypeScript
source) together with the rejection produced by the zod input schemas at the
tRPC boundary.  `insufficientStock` carries the available and required
quantities exactly as the interpolated message of createStockTransaction
does; `insufficientStockFor` additionally carries the medicine name, as the
message in createSalesTransaction does. -/
inductive ApiError
  | medicineNotFound (id : Nat)
  | insufficientStock (available requested : Int)
  | insufficientStockFor (name : String) (available requested : Int)
  | insufficientPayment
  | invalidQuantity
  | invalidInput
deriving DecidableEq

/-- Row of the medicines table (db/schema.ts medicinesTable). -/
structure Medicine where
  id : Nat
  name : String
  description : Option String
  unit : String
  price : Rat
  minimum_stock : Int
  current_stock : Int
  expiry_date : Option String
  batch_number : Option String
  supplier : Option String
deriving DecidableEq

/-- Row of the stock_transactions table (db/schema.ts stockTransactionsTable). -/
structure StockTransaction where
  id : Nat
  medicine_id : Nat
  type : StockTxType
  quantity : Int
  notes : Option String
deriving DecidableEq

/-- Row of the sales_transactions table (db/schema.ts salesTransactionsTable). -/
structure SalesTransaction where
  id : Nat
  patient_id : Option Nat
  total_amount : Rat
  payment_method : PaymentMethod
  payment_received : Rat
  change_amount : Rat
  status : TxStatus
  notes : Option String
deriving DecidableEq

/-- Row of the sales_transaction_items table (db/schema.ts
salesTransactionItemsTable). -/
structure SalesTransactionItem where
  id : Nat
  transaction_id : Nat
  medicine_id : Nat
  quantity : Int
  unit_price : Rat
  total_price : Rat
deriving DecidableEq

/-- The Entity Store: one list per table (rows in insertion order, as the
serial primary key orders them) plus the three serial-id counters. -/
structure DB where
  medicines : List Medicine
  stockTransactions : List StockTransaction
  salesTransactions : List SalesTransaction
  salesTransactionItems : List SalesTransactionItem
  nextStockTxId : Nat
  nextSalesTxId : Nat
  nextItemId : Nat
deriving DecidableEq

/-- CreateStockTransactionInput (schema.ts createStockTransactionInputSchema,
before zod validation: the positivity of quantity is checked by the schema
itself, modelled in stockCreateTransactionRoute). -/
structure CreateStockTransactionInput where
  medicine_id : Nat
  type : StockTxType
  quantity : Int
  notes : Option String
deriving DecidableEq

/-- One element of the items array of createSalesTransactionInputSchema. -/
structure SaleItemInput where
  medicine_id : Nat
  quantity : Int
deriving DecidableEq

/-- CreateSalesTransactionInput (schema.ts createSalesTransactionInputSchema,
before zod validation). -/
structure CreateSalesTransactionInput where
  patient_id : Option Nat
  payment_method : PaymentMethod
  payment_received : Rat
  notes : Option String
  items : List SaleItemInput
deriving DecidableEq

/-- db.select().from(medicinesTable).where(eq(medicinesTable.id, mid)) and
taking row [0]. -/
def findMedicine (s : DB) (mid : Nat) : Option Medicine :=
  s.medicines.find? (fun m => m.id == mid)

/-- db.update(medicinesTable).set(current_stock := v).where(eq(id, mid)):
every row whose id matches gets the new counter value. -/
def setStock (s : DB) (mid : Nat) (v : Int) : DB :=
  { s with medicines :=
      s.medicines.map (fun m => if m.id == mid then { m with current_stock := v } else m) }

/-- db.insert(stockTransactionsTable).values(...).returning(): appends a row
with the next serial id and returns it. -/
def insertStockTx (s : DB) (mid : Nat) (ty : StockTxType) (q : Int) (note : Option String) :
    StockTransaction × DB :=
  let tx : StockTransaction :=
    { id := s.nextStockTxId, medicine_id := mid, type := ty, quantity := q, notes := note }
  (tx, { s with stockTransactions := s.stockTransactions ++ [tx],
                nextStockTxId := s.nextStockTxId + 1 })

/-- Current stock of the (first) medicine row with the given id, if any. -/
def stockOf (s : DB) (mid : Nat) : Option Int :=
  (findMedicine s mid).map (fun m => m.current_stock)

/-- stock_handlers.ts createStockTransaction: look the medicine up, reject an
OUT movement larger than the stored counter, append the ledger row, then set
the counter to the snapshot value plus the signed quantity. -/
def createStockTransaction (inp : CreateStockTransactionInput) (s : DB) :
    Except ApiError StockTransaction × DB :=
  match findMedicine s inp.medicine_id with
  | none => (Except.error (ApiError.medicineNotFound inp.medicine_id), s)
  | some med =>
    if inp.type = StockTxType.OUT ∧ med.current_stock < inp.quantity then
      (Except.error (ApiError.insufficientStock med.current_stock inp.quantity), s)
    else
      let p := insertStockTx s inp.medicine_id inp.type inp.quantity inp.notes
      let stockChange := if inp.type = StockTxType.IN then inp.quantity else -inp.quantity
      let s2 := setStock p.2 inp.medicine_id (med.current_stock + stockChange)
      (Except.ok p.1, s2)

/-- index.ts stock.createTransaction: the zod schema
createStockTransactionInputSchema (quantity: z.number().int().positive())
rejects the call before the handler runs when the quantity is not positive
(integrality is carried by the Int type of the embedding). -/
def stockCreateTransactionRoute (inp : CreateStockTransactionInput) (s : DB) :
    Except ApiError StockTransaction × DB :=
  if 0 < inp.quantity then createStockTransaction inp s
  else (Except.error ApiError.invalidQuantity, s)

/-- The snapshot a cart line resolves to during validation: the medicine row
as read before any write of this sale, plus the requested quantity (the
medicineData array of createSalesTransaction). -/
structure MedData where
  med : Medicine
  requestedQuantity : Int
deriving DecidableEq

/-- First loop of createSalesTransaction: resolve every cart line against the
pre-write database, failing on a missing medicine or a line whose quantity
exceeds the stored counter.  All lines read the same state because no write
has happened yet. -/
def validateSaleItems (s : DB) : List SaleItemInput → Except ApiError (List MedData)
  | [] => Except.ok []
  | item :: rest =>
    match findMedicine s item.medicine_id with
    | none => Except.error (ApiError.medicineNotFound item.medicine_id)
    | some med =>
      if med.current_stock < item.quantity then
        Except.error (ApiError.insufficientStockFor med.name med.current_stock item.quantity)
      else
        match validateSaleItems s rest with
        | Except.error e => Except.error e
        | Except.ok tail => Except.ok ({ med := med, requestedQuantity := item.quantity } :: tail)

/-- Priced line (the itemsWithPrices array): unit price is a copy of the
snapshot medicine price, total price its product with the quantity.  The
TypeScript multiplication is on IEEE doubles; the embedding computes it on
exact rationals. -/
structure SalesItemDraft where
  medicine_id : Nat
  quantity : Int
  unit_price : Rat
  total_price : Rat
deriving DecidableEq

def itemWithPrice (m : MedData) : SalesItemDraft :=
  { medicine_id := m.med.id, quantity := m.requestedQuantity,
    unit_price := m.med.price, total_price := m.med.price * (m.requestedQuantity : Rat) }

/-- The running totalAmount accumulator of createSalesTransaction. -/
def totalAmountOf (l : List MedData) : Rat :=
  l.foldl (fun acc m => acc + m.med.price * (m.requestedQuantity : Rat)) 0

/-- Second write loop of createSalesTransaction: one insert into
sales_transaction_items per priced line, in cart order. -/
def insertSaleItems (s : DB) (tid : Nat) : List SalesItemDraft → DB
  | [] => s
  | d :: rest =>
    let row : SalesTransactionItem :=
      { id := s.nextItemId, transaction_id := tid, medicine_id := d.medicine_id,
        quantity := d.quantity, unit_price := d.unit_price, total_price := d.total_price }
    insertSaleItems
      { s with salesTransactionItems := s.salesTransactionItems ++ [row],
               nextItemId := s.nextItemId + 1 } tid rest

/-- Third write loop of createSalesTransaction: per cart line, set the
medicine counter to the validation-time snapshot value minus the requested
quantity (med.current_stock here is the snapshot captured in medicineData,
not a re-read), then append the OUT ledger row tagged with the sale id. -/
def applySaleStock (tid : Nat) (s : DB) : List MedData → DB
  | [] => s
  | m :: rest =>
    let s1 := setStock s m.med.id (m.med.current_stock - m.requestedQuantity)
    let s2 := (insertStockTx s1 m.med.id StockTxType.OUT m.requestedQuantity
                (some ("Sales transaction #" ++ toString tid))).2
    applySaleStock tid s2 rest

/-- stock_handlers.ts createSalesTransaction: validate every line against the
pre-write state, price the lines from the snapshots, reject a payment below
the total, then persist the transaction row, its item rows, and the per-line
stock updates and OUT ledger rows. -/
def createSalesTransaction (inp : CreateSalesTransactionInput) (s : DB) :
    Except ApiError SalesTransaction × DB :=
  match validateSaleItems s inp.items with
  | Except.error e => (Except.error e, s)
  | Except.ok medicineData =>
    let totalAmount := totalAmountOf medicineData
    let changeAmount := inp.payment_received - totalAmount
    if changeAmount < 0 then
      (Except.error ApiError.insufficientPayment, s)
    else
      let tx : SalesTransaction :=
        { id := s.nextSalesTxId, patient_id := inp.patient_id, total_amount := totalAmount,
          payment_method := inp.payment_method, payment_received := inp.payment_received,
          change_amount := changeAmount, status := TxStatus.COMPLETED, notes := inp.notes }
      let s1 : DB :=
        { s with salesTransactions := s.salesTransactions ++ [tx],
                 nextSalesTxId := s.nextSalesTxId + 1 }
      let s2 := insertSaleItems s1 tx.id (medicineData.map itemWithPrice)
      let s3 := applySaleStock tx.id s2 medicineData
      (Except.ok tx, s3)

/-- index.ts sales.createTransaction: createSalesTransactionInputSchema
requires payment_received positive, at least one item, and every item
quantity a positive integer, before the handler runs. -/
def salesCreateTransactionRoute (inp : CreateSalesTransactionInput) (s : DB) :
    Except ApiError SalesTransaction × DB :=
  if 0 < inp.payment_received ∧ inp.items ≠ [] ∧ (∀ it ∈ inp.items, 0 < it.quantity) then
    createSalesTransaction inp s
  else (Except.error ApiError.invalidInput, s)

def findSalesTransaction (s : DB) (id : Nat) : Option SalesTransaction :=
  s.salesTransactions.find? (fun t => t.id == id)

/-- db.update(salesTransactionsTable).set(status).where(eq(id, tid)). -/
def setSalesStatus (s : DB) (tid : Nat) (st : TxStatus) : DB :=
  { s with salesTransactions :=
      s.salesTransactions.map (fun t => if t.id == tid then { t with status := st } else t) }

/-- Restoration loop of cancelSalesTransaction: for each item row of the
cancelled sale, re-read the medicine from the current state; when it still
exists, add the item quantity back to its counter and append the
compensating IN ledger row; when it does not, do nothing for that item. -/
def restoreItems (cid : Nat) (s : DB) : List SalesTransactionItem → DB
  | [] => s
  | item :: rest =>
    match findMedicine s item.medicine_id with
    | none => restoreItems cid s rest
    | some med =>
      let s1 := setStock s item.medicine_id (med.current_stock + item.quantity)
      let s2 := (insertStockTx s1 item.medicine_id StockTxType.IN item.quantity
                  (some ("Cancelled sales transaction #" ++ toString cid))).2
      restoreItems cid s2 rest

/-- stock_handlers.ts cancelSalesTransaction: false for a missing id, false
for an already CANCELLED transaction, otherwise flip the status to CANCELLED,
run the restoration loop over the sale's item rows, and return true. -/
def cancelSalesTransaction (id : Nat) (s : DB) : Bool × DB :=
  match findSalesTransaction s id with
  | none => (false, s)
  | some tx =>
    if tx.status = TxStatus.CANCELLED then (false, s)
    else
      let items := s.salesTransactionItems.filter (fun it => it.transaction_id == id)
      let s1 := setSalesStatus s id TxStatus.CANCELLED
      let s2 := restoreItems id s1 items
      (true, s2)

/-- UpdateMedicineInput (schema.ts updateMedicineInputSchema): every field
beyond the id optional. -/
structure UpdateMedicineInput where
  id : Nat
  name : Option String
  description : Option (Option String)
  unit : Option String
  price : Option Rat
  minimum_stock : Option Int
  current_stock : Option Int
  expiry_date : Option (Option String)
  batch_number : Option (Option String)
  supplier : Option (Option String)

/-- Modelled from the spec: medicine_handlers.ts (the updateMedicine handler)
is not among the provided sources, only its input schema, its tests and its
route.  Spec section 9 describes it as a partial update map built
field-by-field from the provided fields and applied to the medicine row, and
section 3 confines medicine CRUD to the medicines entity; accordingly the
model applies the present fields of the patch to every medicine row whose id
matches and touches no other table. -/
def applyMedicinePatch (u : UpdateMedicineInput) (m : Medicine) : Medicine :=
  { m with
    name := u.name.getD m.name,
    description := u.description.getD m.description,
    unit := u.unit.getD m.unit,
    price := u.price.getD m.price,
    minimum_stock := u.minimum_stock.getD m.minimum_stock,
    current_stock := u.current_stock.getD m.current_stock,
    expiry_date := u.expiry_date.getD m.expiry_date,
    batch_number := u.batch_number.getD m.batch_number,
    supplier := u.supplier.getD m.supplier }

/-- Modelled from the spec: see applyMedicinePatch. -/
def updateMedicine (u : UpdateMedicineInput) (s : DB) : DB :=
  { s with medicines :=
      s.medicines.map (fun m => if m.id == u.id then applyMedicinePatch u m else m) }

/-- The operations of the stock ledger and sales engines, as exposed through
the tRPC routes. -/
inductive Op
  | stockTx (inp : CreateStockTransactionInput)
  | sale (inp : CreateSalesTransactionInput)
  | cancel (id : Nat)

def applyOp (s : DB) : Op → DB
  | Op.stockTx inp => (stockCreateTransactionRoute inp s).2
  | Op.sale inp => (salesCreateTransactionRoute inp s).2
  | Op.cancel id => (cancelSalesTransaction id s).2

def runOps (ops : List Op) (s : DB) : DB :=
  ops.foldl applyOp s

/-- Signed sum of the ledger quantities recorded against a medicine: IN
positive, OUT negative. -/
def signedLedgerSum (s : DB) (mid : Nat) : Int :=
  s.stockTransactions.foldl
    (fun acc t =>
      if t.medicine_id = mid then
        (if t.type = StockTxType.IN then acc + t.quantity else acc - t.quantity)
      else acc) 0

/-- Ledger/counter agreement of a state s reached from a creation state s0:
every medicine's counter equals its counter at creation plus the signed sum
of the ledger rows recorded since. -/
def ledgerAgreesFrom (s0 s : DB) : Prop :=
  ∀ m ∈ s.medicines, ∀ m0 ∈ s0.medicines, m0.id = m.id →
    m.current_stock = m0.current_stock + (signedLedgerSum s m.id - signedLedgerSum s0 m.id)

instance (s0 s : DB) : Decidable (ledgerAgreesFrom s0 s) := by
  unfold ledgerAgreesFrom
  infer_instance

/-- Non-negativity of every stored stock counter, together with the
non-negativity of every stored sale-item quantity (item rows are only ever
created with the positive quantities the sales schema admits, and the
restoration loop adds them back to counters). -/
def NonnegDB (s : DB) : Prop :=
  (∀ m ∈ s.medicines, 0 ≤ m.current_stock) ∧
  (∀ it ∈ s.salesTransactionItems, 0 ≤ it.quantity)

instance (s : DB) : Decidable (NonnegDB s) := by
  unfold NonnegDB
  infer_instance

/-- Rows and inputs reduced to the (medicine id, quantity) pair that the
stock-debiting and restoration loops act on. -/
def pairOfItem (it : SaleItemInput) : Nat × Int := (it.medicine_id, it.quantity)

def pairOfMedData (m : MedData) : Nat × Int := (m.med.id, m.requestedQuantity)

def pairOfRow (it : SalesTransactionItem) : Nat × Int := (it.medicine_id, it.quantity)

def pairOfDraft (d : SalesItemDraft) : Nat × Int := (d.medicine_id, d.quantity)

/-- The OUT ledger rows appended by the stock-debiting loop of a sale with
the given id, starting at the given serial id: one row per cart line. -/
def outEntriesFrom (startId tid : Nat) : List (Nat × Int) → List StockTransaction
  | [] => []
  | p :: rest =>
    { id := startId, medicine_id := p.1, type := StockTxType.OUT, quantity := p.2,
      notes := some ("Sales transaction #" ++ toString tid) } :: outEntriesFrom (startId + 1) tid rest

/-- The compensating IN ledger rows appended by the restoration loop of
cancellation with the given id: one row per reversed line. -/
def inEntriesFrom (startId cid : Nat) : List (Nat × Int) → List StockTransaction
  | [] => []
  | p :: rest =>
    { id := startId, medicine_id := p.1, type := StockTxType.IN, quantity := p.2,
      notes := some ("Cancelled sales transaction #" ++ toString cid) } :: inEntriesFrom (startId + 1) cid rest

/-- The item rows persisted for a sale with the given id, starting at the
given serial id. -/
def saleRowsFrom (startId tid : Nat) : List SalesItemDraft → List SalesTransactionItem
  | [] => []
  | d :: rest =>
    { id := startId, transaction_id := tid, medicine_id := d.medicine_id, quantity := d.quantity,
      unit_price := d.unit_price, total_price := d.total_price } :: saleRowsFrom (startId + 1) tid rest

/-- Status of the (first) sales transaction row with the given id. -/
def txStatusOf (s : DB) (id : Nat) : Option TxStatus :=
  (findSalesTransaction s id).map (fun t => t.status)

theorem findMedicine_id {s : DB} {mid : Nat} {m : Medicine}
    (h : findMedicine s mid = some m) : m.id = mid := by
  have hp := List.find?_some h
  simpa using hp

theorem findMedicine_mem {s : DB} {mid : Nat} {m : Medicine}
    (h : findMedicine s mid = some m) : m ∈ s.medicines :=
  List.mem_of_find?_eq_some h

theorem findSales_id {s : DB} {id : Nat} {t : SalesTransaction}
    (h : findSalesTransaction s id = some t) : t.id = id := by
  have hp := List.find?_some h
  simpa using hp

theorem find?_map_id_pres {α : Type} (idOf : α → Nat) (g : α → α)
    (hg : ∀ a, idOf (g a) = idOf a) (l : List α) (μ : Nat) :
    (l.map g).find? (fun a => idOf a == μ) = (l.find? (fun a => idOf a == μ)).map g := by
  rw [List.find?_map]
  have hpred : ((fun a => idOf a == μ) ∘ g) = fun a => idOf a == μ := by
    funext a
    simp [Function.comp, hg a]
  rw [hpred]

theorem findMedicine_setStock (s : DB) (mid : Nat) (v : Int) (μ : Nat) :
    findMedicine (setStock s mid v) μ =
      (findMedicine s μ).map
        (fun m => if m.id == mid then { m with current_stock := v } else m) := by
  unfold findMedicine setStock
  exact find?_map_id_pres (fun m => m.id)
    (fun m => if m.id == mid then { m with current_stock := v } else m)
    (fun a => by by_cases h : a.id == mid <;> simp [h]) s.medicines μ

theorem stockOf_setStock_same (s : DB) (mid : Nat) (v : Int) :
    stockOf (setStock s mid v) mid = (stockOf s mid).map (fun _ => v) := by
  unfold stockOf
  rw [findMedicine_setStock]
  cases h : findMedicine s mid with
  | none => rfl
  | some m =>
    have hid := findMedicine_id h
    simp [Option.map, hid]

theorem stockOf_setStock_ne (s : DB) (mid : Nat) (v : Int) (μ : Nat) (hne : μ ≠ mid) :
    stockOf (setStock s mid v) μ = stockOf s μ := by
  unfold stockOf
  rw [findMedicine_setStock]
  cases h : findMedicine s μ with
  | none => rfl
  | some m =>
    have hid := findMedicine_id h
    have : (m.id == mid) = false := by
      simp [hid]
      exact hne
    simp [Option.map, this]

theorem findMedicine_setStock_isSome (s : DB) (mid : Nat) (v : Int) (μ : Nat) :
    (findMedicine (setStock s mid v) μ).isSome = (findMedicine s μ).isSome := by
  rw [findMedicine_setStock]
  cases findMedicine s μ <;> rfl

theorem findSales_setStatus (s : DB) (tid : Nat) (st : TxStatus) (μ : Nat) :
    findSalesTransaction (setSalesStatus s tid st) μ =
      (findSalesTransaction s μ).map
        (fun t => if t.id == tid then { t with status := st } else t) := by
  unfold findSalesTransaction setSalesStatus
  exact find?_map_id_pres (fun t => t.id)
    (fun t => if t.id == tid then { t with status := st } else t)
    (fun a => by by_cases h : a.id == tid <;> simp [h]) s.salesTransactions μ

theorem find?_append_of_none {α : Type} {p : α → Bool} {l1 l2 : List α}
    (h : l1.find? p = none) : (l1 ++ l2).find? p = l2.find? p := by
  rw [List.find?_append, h, Option.none_or]

theorem stockOf_congr_medicines {s s' : DB} (h : s.medicines = s'.medicines) (μ : Nat) :
    stockOf s μ = stockOf s' μ := by
  unfold stockOf findMedicine
  rw [h]

theorem setStock_map_id (s : DB) (mid : Nat) (v : Int) :
    (setStock s mid v).medicines.map (fun m => m.id) = s.medicines.map (fun m => m.id) := by
  unfold setStock
  simp only [List.map_map]
  apply List.map_congr_left
  intro a _
  by_cases h : a.id == mid <;> simp [Function.comp, h]

theorem insertSaleItems_spec (tid : Nat) (ds : List SalesItemDraft) :
    ∀ s : DB,
      (insertSaleItems s tid ds).medicines = s.medicines ∧
      (insertSaleItems s tid ds).stockTransactions = s.stockTransactions ∧
      (insertSaleItems s tid ds).salesTransactions = s.salesTransactions ∧
      (insertSaleItems s tid ds).salesTransactionItems
        = s.salesTransactionItems ++ saleRowsFrom s.nextItemId tid ds ∧
      (insertSaleItems s tid ds).nextStockTxId = s.nextStockTxId ∧
      (insertSaleItems s tid ds).nextSalesTxId = s.nextSalesTxId := by
  induction ds with
  | nil =>
    intro s
    simp [insertSaleItems, saleRowsFrom]
  | cons d rest ih =>
    intro s
    simp only [insertSaleItems]
    obtain ⟨h1, h2, h3, h4, h5, h6⟩ := ih _
    refine ⟨h1, h2, h3, ?_, h5, h6⟩
    rw [h4]
    simp [saleRowsFrom, List.append_assoc]

theorem applySaleStock_spec (tid : Nat) (l : List MedData) :
    ∀ s : DB,
      (applySaleStock tid s l).salesTransactions = s.salesTransactions ∧
      (applySaleStock tid s l).salesTransactionItems = s.salesTransactionItems ∧
      (applySaleStock tid s l).nextSalesTxId = s.nextSalesTxId ∧
      (applySaleStock tid s l).nextItemId = s.nextItemId ∧
      (applySaleStock tid s l).stockTransactions
        = s.stockTransactions ++ outEntriesFrom s.nextStockTxId tid (l.map pairOfMedData) ∧
      (applySaleStock tid s l).medicines.map (fun m => m.id)
        = s.medicines.map (fun m => m.id) := by
  induction l with
  | nil =>
    intro s
    simp [applySaleStock, outEntriesFrom]
  | cons m rest ih =>
    intro s
    simp only [applySaleStock]
    obtain ⟨h1, h2, h3, h4, h5, h6⟩ := ih _
    refine ⟨h1, h2, h3, h4, ?_, ?_⟩
    · rw [h5]
      simp [insertStockTx, setStock, outEntriesFrom, pairOfMedData, List.append_assoc]
    · rw [h6]
      simp only [insertStockTx]
      exact setStock_map_id s m.med.id (m.med.current_stock - m.requestedQuantity)

theorem applySaleStock_stockOf (tid : Nat) (μ : Nat) :
    ∀ (l : List MedData) (s : DB),
      (l.map (fun m => m.med.id)).Nodup →
      stockOf (applySaleStock tid s l) μ =
        match l.find? (fun m => m.med.id == μ) with
        | some m => (stockOf s μ).map (fun _ => m.med.current_stock - m.requestedQuantity)
        | none => stockOf s μ := by
  intro l
  induction l with
  | nil =>
    intro s _
    simp [applySaleStock, List.find?]
  | cons m rest ih =>
    intro s hnd
    rw [List.map_cons, List.nodup_cons] at hnd
    obtain ⟨hnotmem, hndrest⟩ := hnd
    simp only [applySaleStock]
    have hmeds :
        ((insertStockTx (setStock s m.med.id (m.med.current_stock - m.requestedQuantity))
            m.med.id StockTxType.OUT m.requestedQuantity
            (some ("Sales transaction #" ++ toString tid))).2).medicines
          = (setStock s m.med.id (m.med.current_stock - m.requestedQuantity)).medicines := rfl
    by_cases hμ : m.med.id = μ
    · have hrest : rest.find? (fun x => x.med.id == μ) = none := by
        rw [List.find?_eq_none]
        intro x hx
        simp only [beq_iff_eq]
        intro hxe
        exact hnotmem (by rw [← hμ] at hxe; exact hxe ▸ List.mem_map_of_mem (fun m => m.med.id) hx)
      rw [ih _ hndrest, hrest]
      rw [stockOf_congr_medicines hmeds μ, ← hμ, stockOf_setStock_same]
      simp [List.find?_cons, hμ]
    · have hfind :
        List.find? (fun x => x.med.id == μ) (m :: rest) = rest.find? (fun x => x.med.id == μ) := by
        simp [List.find?_cons, hμ]
      rw [ih _ hndrest, hfind]
      have hs2 :
          stockOf ((insertStockTx (setStock s m.med.id (m.med.current_stock - m.requestedQuantity))
              m.med.id StockTxType.OUT m.requestedQuantity
              (some ("Sales transaction #" ++ toString tid))).2) μ = stockOf s μ := by
        rw [stockOf_congr_medicines hmeds μ]
        exact stockOf_setStock_ne s m.med.id _ μ (fun h => hμ h.symm)
      cases rest.find? (fun x => x.med.id == μ) <;> simp [hs2]

theorem restoreItems_spec (cid : Nat) (items : List SalesTransactionItem) :
    ∀ s : DB,
      (restoreItems cid s items).medicines.map (fun m => m.id)
        = s.medicines.map (fun m => m.id) ∧
      (restoreItems cid s items).salesTransactions = s.salesTransactions ∧
      (restoreItems cid s items).salesTransactionItems = s.salesTransactionItems ∧
      (restoreItems cid s items).nextSalesTxId = s.nextSalesTxId ∧
      (restoreItems cid s items).nextItemId = s.nextItemId ∧
      (restoreItems cid s items).stockTransactions
        = s.stockTransactions ++ inEntriesFrom s.nextStockTxId cid
            ((items.filter (fun it => (findMedicine s it.medicine_id).isSome)).map pairOfRow) := by
  induction items with
  | nil =>
    intro s
    simp [restoreItems, inEntriesFrom]
  | cons it rest ih =>
    intro s
    simp only [restoreItems]
    cases hf : findMedicine s it.medicine_id with
    | none =>
      obtain ⟨h1, h2, h3, h4, h5, h6⟩ := ih s
      have hfilter :
          (it :: rest).filter (fun x => (findMedicine s x.medicine_id).isSome)
            = rest.filter (fun x => (findMedicine s x.medicine_id).isSome) := by
        simp [List.filter_cons, hf]
      rw [hfilter]
      exact ⟨h1, h2, h3, h4, h5, h6⟩
    | some med =>
      set s2 := (insertStockTx (setStock s it.medicine_id (med.current_stock + it.quantity))
          it.medicine_id StockTxType.IN it.quantity
          (some ("Cancelled sales transaction #" ++ toString cid))).2 with hs2
      obtain ⟨h1, h2, h3, h4, h5, h6⟩ := ih s2
      have hmeds2 : s2.medicines
          = (setStock s it.medicine_id (med.current_stock + it.quantity)).medicines := rfl
      have hids : s2.medicines.map (fun m => m.id) = s.medicines.map (fun m => m.id) := by
        rw [hmeds2]
        exact setStock_map_id s it.medicine_id (med.current_stock + it.quantity)
      have hsome : ∀ μ : Nat, (findMedicine s2 μ).isSome = (findMedicine s μ).isSome := by
        intro μ
        have : findMedicine s2 μ
            = findMedicine (setStock s it.medicine_id (med.current_stock + it.quantity)) μ := by
          unfold findMedicine
          rw [hmeds2]
        rw [this]
        exact findMedicine_setStock_isSome s it.medicine_id (med.current_stock + it.quantity) μ
      have hfiltcong :
          rest.filter (fun x => (findMedicine s2 x.medicine_id).isSome)
            = rest.filter (fun x => (findMedicine s x.medicine_id).isSome) :=
        List.filter_congr (fun x _ => hsome x.medicine_id)
      have hfilter :
          (it :: rest).filter (fun x => (findMedicine s x.medicine_id).isSome)
            = it :: rest.filter (fun x => (findMedicine s x.medicine_id).isSome) := by
        simp [List.filter_cons, hf]
      refine ⟨h1.trans hids, h2, h3, h4, h5, ?_⟩
      rw [h6, hfiltcong, hfilter]
      have hst2 : s2.stockTransactions = s.stockTransactions ++
          [{ id := s.nextStockTxId, medicine_id := it.medicine_id, type := StockTxType.IN,
             quantity := it.quantity,
             notes := some ("Cancelled sales transaction #" ++ toString cid) }] := rfl
      have hnext2 : s2.nextStockTxId = s.nextStockTxId + 1 := rfl
      rw [hst2, hnext2]
      simp [inEntriesFrom, pairOfRow, List.append_assoc]

theorem restoreItems_stockOf (cid : Nat) (μ : Nat) :
    ∀ (items : List SalesTransactionItem) (s : DB),
      (items.map (fun it => it.medicine_id)).Nodup →
      stockOf (restoreItems cid s items) μ =
        match items.find? (fun it => it.medicine_id == μ) with
        | some it => (stockOf s μ).map (fun v => v + it.quantity)
        | none => stockOf s μ := by
  intro items
  induction items with
  | nil =>
    intro s _
    simp [restoreItems, List.find?]
  | cons it rest ih =>
    intro s hnd
    rw [List.map_cons, List.nodup_cons] at hnd
    obtain ⟨hnotmem, hndrest⟩ := hnd
    simp only [restoreItems]
    by_cases hμ : it.medicine_id = μ
    · have hrest : rest.find? (fun x => x.medicine_id == μ) = none := by
        rw [List.find?_eq_none]
        intro x hx
        simp only [beq_iff_eq]
        intro hxe
        exact hnotmem (by
          rw [← hμ] at hxe
          exact hxe ▸ List.mem_map_of_mem (fun y => y.medicine_id) hx)
      cases hf : findMedicine s it.medicine_id with
      | none =>
        rw [ih _ hndrest, hrest]
        have hnone : stockOf s μ = none := by
          unfold stockOf
          rw [← hμ, hf]
          rfl
        rw [hnone]
        simp [List.find?_cons, hμ, hnone]
      | some med =>
        set s2 := (insertStockTx (setStock s it.medicine_id (med.current_stock + it.quantity))
            it.medicine_id StockTxType.IN it.quantity
            (some ("Cancelled sales transaction #" ++ toString cid))).2 with hs2
        have hmeds2 : s2.medicines
            = (setStock s it.medicine_id (med.current_stock + it.quantity)).medicines := rfl
        rw [ih _ hndrest, hrest]
        have : stockOf s2 μ = (stockOf s μ).map (fun _ => med.current_stock + it.quantity) := by
          rw [stockOf_congr_medicines hmeds2 μ, ← hμ]
          exact stockOf_setStock_same s it.medicine_id (med.current_stock + it.quantity)
        rw [this]
        have hsv : stockOf s μ = some med.current_stock := by
          unfold stockOf
          rw [← hμ, hf]
          rfl
        rw [hsv]
        simp [List.find?_cons, hμ]
    · have hfind :
          List.find? (fun x => x.medicine_id == μ) (it :: rest)
            = rest.find? (fun x => x.medicine_id == μ) := by
        simp [List.find?_cons, hμ]
      cases hf : findMedicine s it.medicine_id with
      | none =>
        rw [ih _ hndrest, hfind]
      | some med =>
        set s2 := (insertStockTx (setStock s it.medicine_id (med.current_stock + it.quantity))
            it.medicine_id StockTxType.IN it.quantity
            (some ("Cancelled sales transaction #" ++ toString cid))).2 with hs2
        have hmeds2 : s2.medicines
            = (setStock s it.medicine_id (med.current_stock + it.quantity)).medicines := rfl
        have hss : stockOf s2 μ = stockOf s μ := by
          rw [stockOf_congr_medicines hmeds2 μ]
          exact stockOf_setStock_ne s it.medicine_id _ μ (fun h => hμ h.symm)
        rw [ih _ hndrest, hfind, hss]

theorem validateSaleItems_ok_pairs {s : DB} :
    ∀ {items : List SaleItemInput} {l : List MedData},
      validateSaleItems s items = Except.ok l →
      l.map pairOfMedData = items.map pairOfItem := by
  intro items
  induction items with
  | nil =>
    intro l h
    simp only [validateSaleItems, Except.ok.injEq] at h
    rw [← h]
    rfl
  | cons it rest ih =>
    intro l h
    simp only [validateSaleItems] at h
    split at h
    · cases h
    · rename_i med hf
      split at h
      · cases h
      · split at h
        · cases h
        · rename_i tail hv
          simp only [Except.ok.injEq] at h
          rw [← h]
          simp [pairOfMedData, pairOfItem, findMedicine_id hf, ih hv]
theorem validateSaleItems_ok_mem {s : DB} :
    ∀ {items : List SaleItemInput} {l : List MedData},
      validateSaleItems s items = Except.ok l →
      ∀ m ∈ l, findMedicine s m.med.id = some m.med ∧
        m.requestedQuantity ≤ m.med.current_stock := by
  intro items
  induction items with
  | nil =>
    intro l h
    simp only [validateSaleItems, Except.ok.injEq] at h
    rw [← h]
    intro m hm
    cases hm
  | cons it rest ih =>
    intro l h
    simp only [validateSaleItems] at h
    split at h
    · cases h
    · rename_i med hf
      split at h
      · cases h
      · rename_i hq
        split at h
        · cases h
        · rename_i tail hv
          simp only [Except.ok.injEq] at h
          rw [← h]
          intro m hm
          cases hm with
          | head =>
            constructor
            · show findMedicine s med.id = some med
              rw [findMedicine_id hf]
              exact hf
            · exact le_of_not_lt hq
          | tail _ hmem => exact ih hv m hmem

theorem validateSaleItems_uniform {s : DB} {m : Medicine}
    (hm : findMedicine s m.id = some m) :
    ∀ {items : List SaleItemInput},
      (∀ it ∈ items, it.medicine_id = m.id ∧ ¬ m.current_stock < it.quantity) →
      validateSaleItems s items
        = Except.ok (items.map (fun it => { med := m, requestedQuantity := it.quantity })) := by
  intro items
  induction items with
  | nil =>
    intro _
    rfl
  | cons it rest ih =>
    intro hall
    obtain ⟨hid, hq⟩ := hall it (List.mem_cons_self it rest)
    simp only [validateSaleItems, hid, hm, if_neg hq,
      ih (fun x hx => hall x (List.mem_cons_of_mem it hx)), List.map_cons]

/-- The first cart line, in input order, whose medicine exists but whose
quantity exceeds the stored counter at validation time (a line with a
missing medicine aborts validation earlier, so the scan stops there). -/
def firstShort (s : DB) : List SaleItemInput → Option (Medicine × Int)
  | [] => none
  | it :: rest =>
    match findMedicine s it.medicine_id with
    | none => none
    | some med =>
      if med.current_stock < it.quantity then some (med, it.quantity)
      else firstShort s rest

theorem validateSaleItems_firstShort {s : DB} :
    ∀ {items : List SaleItemInput} {med : Medicine} {q : Int},
      firstShort s items = some (med, q) →
      validateSaleItems s items
        = Except.error (ApiError.insufficientStockFor med.name med.current_stock q) := by
  intro items
  induction items with
  | nil =>
    intro med q h
    cases h
  | cons it rest ih =>
    intro med q h
    simp only [firstShort] at h
    split at h
    · cases h
    · rename_i med0 hf
      split at h
      · rename_i hq
        simp only [Option.some.injEq, Prod.mk.injEq] at h
        obtain ⟨h1, h2⟩ := h
        subst h1
        subst h2
        simp only [validateSaleItems, hf, if_pos hq]
      · rename_i hq
        simp only [validateSaleItems, hf, if_neg hq, ih h]

theorem totalAmountOf_uniform (m : Medicine) (items : List SaleItemInput) :
    totalAmountOf (items.map (fun it => { med := m, requestedQuantity := it.quantity })) =
      m.price * (((items.map (fun it => it.quantity)).sum : Int) : Rat) := by
  unfold totalAmountOf
  have key : ∀ (its : List SaleItemInput) (acc : Rat),
      ((its.map (fun it => ({ med := m, requestedQuantity := it.quantity } : MedData))).foldl
        (fun acc x => acc + x.med.price * (x.requestedQuantity : Rat)) acc)
        = acc + m.price * (((its.map (fun it => it.quantity)).sum : Int) : Rat) := by
    intro its
    induction its with
    | nil =>
      intro acc
      simp
    | cons it rest ihr =>
      intro acc
      simp only [List.map_cons, List.foldl_cons, ihr, List.sum_cons]
      push_cast
      ring
  rw [key]
  simp

theorem find?_append_some {α : Type} {p : α → Bool} {l1 l2 : List α} {a : α}
    (h : l1.find? p = some a) : (l1 ++ l2).find? p = some a := by
  rw [List.find?_append, h]
  rfl

theorem stockRoute_error_state {inp : CreateStockTransactionInput} {s : DB} {e : ApiError}
    {s' : DB} (h : stockCreateTransactionRoute inp s = (Except.error e, s')) : s' = s := by
  unfold stockCreateTransactionRoute at h
  split at h
  · unfold createStockTransaction at h
    split at h
    · exact (congrArg Prod.snd h).symm
    · split at h
      · exact (congrArg Prod.snd h).symm
      · exfalso
        have hfst := congrArg Prod.fst h
        simp at hfst
  · exact (congrArg Prod.snd h).symm

theorem salesRoute_error_state {inp : CreateSalesTransactionInput} {s : DB} {e : ApiError}
    {s' : DB} (h : salesCreateTransactionRoute inp s = (Except.error e, s')) : s' = s := by
  unfold salesCreateTransactionRoute at h
  split at h
  · unfold createSalesTransaction at h
    split at h
    · exact (congrArg Prod.snd h).symm
    · simp only [] at h
      split at h
      · exact (congrArg Prod.snd h).symm
      · exfalso
        have hfst := congrArg Prod.fst h
        simp at hfst
  · exact (congrArg Prod.snd h).symm

theorem sale_ok_inv {inp : CreateSalesTransactionInput} {s : DB} {tx : SalesTransaction}
    {s' : DB} (h : salesCreateTransactionRoute inp s = (Except.ok tx, s')) :
    (0 < inp.payment_received ∧ inp.items ≠ [] ∧ ∀ it ∈ inp.items, 0 < it.quantity) ∧
    ∃ l, validateSaleItems s inp.items = Except.ok l ∧
      ¬ inp.payment_received - totalAmountOf l < 0 ∧
      tx = { id := s.nextSalesTxId, patient_id := inp.patient_id,
             total_amount := totalAmountOf l, payment_method := inp.payment_method,
             payment_received := inp.payment_received,
             change_amount := inp.payment_received - totalAmountOf l,
             status := TxStatus.COMPLETED, notes := inp.notes } ∧
      s' = applySaleStock s.nextSalesTxId
             (insertSaleItems
               { s with salesTransactions := s.salesTransactions ++ [tx],
                        nextSalesTxId := s.nextSalesTxId + 1 }
               s.nextSalesTxId (l.map itemWithPrice)) l := by
  unfold salesCreateTransactionRoute at h
  split at h
  · rename_i hcond
    unfold createSalesTransaction at h
    split at h
    · exfalso
      have hfst := congrArg Prod.fst h
      simp at hfst
    · rename_i l hval
      simp only [] at h
      split at h
      · exfalso
        have hfst := congrArg Prod.fst h
        simp at hfst
      · rename_i hpay
        have hfst := congrArg Prod.fst h
        have hsnd := congrArg Prod.snd h
        simp only [Except.ok.injEq] at hfst
        subst hfst
        refine ⟨hcond, l, hval, hpay, rfl, ?_⟩
        simpa using hsnd.symm
  · exfalso
    have hfst := congrArg Prod.fst h
    simp at hfst

theorem cancel_cases (id : Nat) (s : DB) :
    cancelSalesTransaction id s = (false, s) ∨
    (∃ tx, findSalesTransaction s id = some tx ∧ tx.status ≠ TxStatus.CANCELLED ∧
      cancelSalesTransaction id s =
        (true, restoreItems id (setSalesStatus s id TxStatus.CANCELLED)
          (s.salesTransactionItems.filter (fun it => it.transaction_id == id)))) := by
  unfold cancelSalesTransaction
  cases hf : findSalesTransaction s id with
  | none =>
    left
    rfl
  | some tx =>
    by_cases hc : tx.status = TxStatus.CANCELLED
    · left
      simp [hc]
    · right
      exact ⟨tx, rfl, hc, by simp [hc]⟩

theorem saleRowsFrom_mem :
    ∀ (startId tid : Nat) (ds : List SalesItemDraft) (r : SalesTransactionItem),
      r ∈ saleRowsFrom startId tid ds →
      r.transaction_id = tid ∧ ∃ d ∈ ds, r.medicine_id = d.medicine_id ∧
        r.quantity = d.quantity ∧ r.unit_price = d.unit_price ∧
        r.total_price = d.total_price := by
  intro startId tid ds
  induction ds generalizing startId with
  | nil =>
    intro r hr
    cases hr
  | cons d rest ih =>
    intro r hr
    cases hr with
    | head =>
      exact ⟨rfl, d, List.mem_cons_self d rest, rfl, rfl, rfl, rfl⟩
    | tail _ hmem =>
      obtain ⟨h1, d', hd', h2⟩ := ih (startId + 1) r hmem
      exact ⟨h1, d', List.mem_cons_of_mem d hd', h2⟩

theorem setStock_nonneg {s : DB} {mid : Nat} {v : Int} (hv : 0 ≤ v)
    (h : ∀ m ∈ s.medicines, 0 ≤ m.current_stock) :
    ∀ m ∈ (setStock s mid v).medicines, 0 ≤ m.current_stock := by
  intro m hm
  unfold setStock at hm
  simp only [List.mem_map] at hm
  obtain ⟨a, ha, hae⟩ := hm
  subst hae
  split_ifs
  · exact hv
  · exact h a ha

theorem applySaleStock_nonneg (tid : Nat) :
    ∀ (l : List MedData) (s : DB),
      (∀ m ∈ l, m.requestedQuantity ≤ m.med.current_stock) →
      (∀ m ∈ s.medicines, 0 ≤ m.current_stock) →
      ∀ m ∈ (applySaleStock tid s l).medicines, 0 ≤ m.current_stock := by
  intro l
  induction l with
  | nil =>
    intro s _ h
    simpa [applySaleStock] using h
  | cons md rest ih =>
    intro s hl h
    simp only [applySaleStock]
    apply ih
    · intro x hx
      exact hl x (List.mem_cons_of_mem _ hx)
    · intro m hm
      have hv : 0 ≤ md.med.current_stock - md.requestedQuantity := by
        have := hl md (List.mem_cons_self _ _)
        omega
      exact setStock_nonneg hv h m hm

theorem restoreItems_nonneg (cid : Nat) :
    ∀ (items : List SalesTransactionItem) (s : DB),
      (∀ it ∈ items, 0 ≤ it.quantity) →
      (∀ m ∈ s.medicines, 0 ≤ m.current_stock) →
      ∀ m ∈ (restoreItems cid s items).medicines, 0 ≤ m.current_stock := by
  intro items
  induction items with
  | nil =>
    intro s _ h
    simpa [restoreItems] using h
  | cons it rest ih =>
    intro s hq h
    simp only [restoreItems]
    split
    · exact ih s (fun x hx => hq x (List.mem_cons_of_mem _ hx)) h
    · rename_i med hf
      apply ih
      · intro x hx
        exact hq x (List.mem_cons_of_mem _ hx)
      · intro m hm
        have hmed : 0 ≤ med.current_stock := h med (findMedicine_mem hf)
        have hitq : 0 ≤ it.quantity := hq it (List.mem_cons_self _ _)
        have hv : 0 ≤ med.current_stock + it.quantity := by omega
        exact setStock_nonneg hv h m hm

theorem stockRoute_nonneg (inp : CreateStockTransactionInput) (s : DB) (h : NonnegDB s) :
    NonnegDB (stockCreateTransactionRoute inp s).2 := by
  unfold stockCreateTransactionRoute
  split
  · rename_i hq
    unfold createStockTransaction
    split
    · exact h
    · rename_i med hf
      split
      · exact h
      · rename_i hguard
        constructor
        · intro m hm
          have hmem := findMedicine_mem hf
          have hmn := h.1 med hmem
          have hv : 0 ≤ med.current_stock +
              (if inp.type = StockTxType.IN then inp.quantity else -inp.quantity) := by
            by_cases ht : inp.type = StockTxType.IN
            · rw [if_pos ht]
              omega
            · rw [if_neg ht]
              have hout : inp.type = StockTxType.OUT := by
                cases htt : inp.type
                · exact absurd htt ht
                · rfl
              have : ¬ med.current_stock < inp.quantity := fun hlt => hguard ⟨hout, hlt⟩
              omega
          exact setStock_nonneg hv h.1 m hm
        · exact h.2
  · exact h

theorem salesRoute_nonneg (inp : CreateSalesTransactionInput) (s : DB) (h : NonnegDB s) :
    NonnegDB (salesCreateTransactionRoute inp s).2 := by
  cases hr : (salesCreateTransactionRoute inp s).1 with
  | error e =>
    have hpair : salesCreateTransactionRoute inp s
        = (Except.error e, (salesCreateTransactionRoute inp s).2) := by
      rw [← hr]
    rw [salesRoute_error_state hpair]
    exact h
  | ok tx =>
    have hpair : salesCreateTransactionRoute inp s
        = (Except.ok tx, (salesCreateTransactionRoute inp s).2) := by
      rw [← hr]
    obtain ⟨hcond, l, hval, hpay, htx, hs'⟩ := sale_ok_inv hpair
    rw [hs']
    obtain ⟨hm1, _, _, hitems1, _, _⟩ := insertSaleItems_spec s.nextSalesTxId (l.map itemWithPrice)
      { s with salesTransactions := s.salesTransactions ++ [tx],
               nextSalesTxId := s.nextSalesTxId + 1 }
    obtain ⟨_, hitems2, _, _, _, _⟩ := applySaleStock_spec s.nextSalesTxId l
      (insertSaleItems
        { s with salesTransactions := s.salesTransactions ++ [tx],
                 nextSalesTxId := s.nextSalesTxId + 1 }
        s.nextSalesTxId (l.map itemWithPrice))
    constructor
    · apply applySaleStock_nonneg
      · intro m hm
        exact (validateSaleItems_ok_mem hval m hm).2
      · rw [hm1]
        exact h.1
    · rw [hitems2, hitems1]
      intro it hit
      rcases List.mem_append.mp hit with hold | hnew
      · exact h.2 it hold
      · obtain ⟨_, d, hd, _, hqd, _, _⟩ := saleRowsFrom_mem _ _ _ _ hnew
        obtain ⟨md, hmd, hde⟩ := List.mem_map.mp hd
        have hpairs := validateSaleItems_ok_pairs hval
        have hmem2 : pairOfMedData md ∈ inp.items.map pairOfItem := by
          rw [← hpairs]
          exact List.mem_map_of_mem pairOfMedData hmd
        obtain ⟨it', hit', hpe⟩ := List.mem_map.mp hmem2
        have hqpos : 0 < it'.quantity := hcond.2.2 it' hit'
        have hrq : md.requestedQuantity = it'.quantity := by
          have := congrArg Prod.snd hpe
          simpa [pairOfMedData, pairOfItem] using this.symm
        rw [hqd, ← hde]
        simp only [itemWithPrice]
        omega

theorem cancel_nonneg (id : Nat) (s : DB) (h : NonnegDB s) :
    NonnegDB (cancelSalesTransaction id s).2 := by
  rcases cancel_cases id s with hcase | ⟨tx, hf, hns, hcase⟩
  · rw [hcase]
    exact h
  · rw [hcase]
    constructor
    · apply restoreItems_nonneg
      · intro it hit
        exact h.2 it (List.mem_of_mem_filter hit)
      · exact h.1
    · obtain ⟨_, _, hitems, _, _, _⟩ := restoreItems_spec id
        (s.salesTransactionItems.filter (fun it => it.transaction_id == id))
        (setSalesStatus s id TxStatus.CANCELLED)
      rw [hitems]
      exact h.2

theorem runOps_nonneg : ∀ (ops : List Op) (s : DB), NonnegDB s → NonnegDB (runOps ops s) := by
  intro ops
  induction ops with
  | nil =>
    intro s h
    exact h
  | cons op rest ih =>
    intro s h
    show NonnegDB (runOps rest (applyOp s op))
    apply ih
    cases op with
    | stockTx inp => exact stockRoute_nonneg inp s h
    | sale inp => exact salesRoute_nonneg inp s h
    | cancel id => exact cancel_nonneg id s h

/-- Freshness of serial ids: every persisted sales transaction id and every
item's transaction reference is below the next serial id, as the serial
primary key guarantees. -/
def WFdb (s : DB) : Prop :=
  (∀ t ∈ s.salesTransactions, t.id < s.nextSalesTxId) ∧
  (∀ it ∈ s.salesTransactionItems, it.transaction_id < s.nextSalesTxId)

instance (s : DB) : Decidable (WFdb s) := by
  unfold WFdb
  infer_instance

/-- The sales transaction row persisted by a successful createSalesTransaction. -/
def mkSaleTx (inp : CreateSalesTransactionInput) (s : DB) (l : List MedData) : SalesTransaction :=
  { id := s.nextSalesTxId, patient_id := inp.patient_id, total_amount := totalAmountOf l,
    payment_method := inp.payment_method, payment_received := inp.payment_received,
    change_amount := inp.payment_received - totalAmountOf l, status := TxStatus.COMPLETED,
    notes := inp.notes }

/-- The state after all writes of a successful createSalesTransaction. -/
def saleWriteState (inp : CreateSalesTransactionInput) (s : DB) (l : List MedData) : DB :=
  applySaleStock s.nextSalesTxId
    (insertSaleItems
      { s with salesTransactions := s.salesTransactions ++ [mkSaleTx inp s l],
               nextSalesTxId := s.nextSalesTxId + 1 }
      s.nextSalesTxId (l.map itemWithPrice)) l

theorem sale_ok_build {inp : CreateSalesTransactionInput} {s : DB} {l : List MedData}
    (hcond : 0 < inp.payment_received ∧ inp.items ≠ [] ∧ ∀ it ∈ inp.items, 0 < it.quantity)
    (hval : validateSaleItems s inp.items = Except.ok l)
    (hpay : ¬ inp.payment_received - totalAmountOf l < 0) :
    salesCreateTransactionRoute inp s = (Except.ok (mkSaleTx inp s l), saleWriteState inp s l) := by
  unfold salesCreateTransactionRoute
  rw [if_pos hcond]
  unfold createSalesTransaction
  split
  · rename_i heq
    rw [hval] at heq
    cases heq
  · rename_i l' heq
    rw [hval] at heq
    injection heq with heq
    subst heq
    simp only []
    rw [if_neg hpay]
    rfl

theorem cancel_build {s : DB} {id : Nat} {tx : SalesTransaction}
    (hf : findSalesTransaction s id = some tx) (hns : tx.status ≠ TxStatus.CANCELLED) :
    cancelSalesTransaction id s =
      (true, restoreItems id (setSalesStatus s id TxStatus.CANCELLED)
        (s.salesTransactionItems.filter (fun it => it.transaction_id == id))) := by
  unfold cancelSalesTransaction
  split
  · rename_i heq
    rw [hf] at heq
    cases heq
  · rename_i tx' heq
    rw [hf] at heq
    injection heq with heq
    subst heq
    rw [if_neg hns]

theorem txStatusOf_congr {s s' : DB} (h : s.salesTransactions = s'.salesTransactions)
    (id : Nat) : txStatusOf s id = txStatusOf s' id := by
  unfold txStatusOf findSalesTransaction
  rw [h]

theorem cancel_true_status {id : Nat} {s s' : DB}
    (h : cancelSalesTransaction id s = (true, s')) :
    txStatusOf s' id = some TxStatus.CANCELLED := by
  rcases cancel_cases id s with hcase | ⟨tx, hf, hns, hcase⟩
  · rw [hcase] at h
    cases h
  · rw [hcase] at h
    have hs' : s' = restoreItems id (setSalesStatus s id TxStatus.CANCELLED)
        (s.salesTransactionItems.filter (fun it => it.transaction_id == id)) :=
      (congrArg Prod.snd h).symm
    subst hs'
    obtain ⟨_, hsales, _, _, _, _⟩ := restoreItems_spec id
      (s.salesTransactionItems.filter (fun it => it.transaction_id == id))
      (setSalesStatus s id TxStatus.CANCELLED)
    rw [txStatusOf_congr hsales id]
    unfold txStatusOf
    rw [findSales_setStatus]
    rw [hf]
    have hid : tx.id = id := findSales_id hf
    simp [hid]

theorem saleRowsFrom_map_pair :
    ∀ (startId tid : Nat) (ds : List SalesItemDraft),
      (saleRowsFrom startId tid ds).map pairOfRow = ds.map pairOfDraft := by
  intro startId tid ds
  induction ds generalizing startId with
  | nil => rfl
  | cons d rest ih =>
    simp only [saleRowsFrom, List.map_cons, ih]
    rfl

theorem saleRowsFrom_tid :
    ∀ (startId tid : Nat) (ds : List SalesItemDraft) (r : SalesTransactionItem),
      r ∈ saleRowsFrom startId tid ds → r.transaction_id = tid := by
  intro startId tid ds r hr
  exact (saleRowsFrom_mem startId tid ds r hr).1

theorem applySaleStock_stockOf_uniform (tid μ : Nat) :
    ∀ (l : List MedData) (s : DB) (hne : l ≠ []),
      (∀ x ∈ l, x.med.id = μ) →
      stockOf (applySaleStock tid s l) μ =
        (stockOf s μ).map
          (fun _ => (l.getLast hne).med.current_stock - (l.getLast hne).requestedQuantity) := by
  intro l
  induction l with
  | nil =>
    intro s hne _
    exact absurd rfl hne
  | cons x rest ih =>
    intro s hne hall
    have hx : x.med.id = μ := hall x (List.mem_cons_self _ _)
    simp only [applySaleStock]
    have hmeds :
        ((insertStockTx (setStock s x.med.id (x.med.current_stock - x.requestedQuantity))
            x.med.id StockTxType.OUT x.requestedQuantity
            (some ("Sales transaction #" ++ toString tid))).2).medicines
          = (setStock s x.med.id (x.med.current_stock - x.requestedQuantity)).medicines := rfl
    cases rest with
    | nil =>
      simp only [applySaleStock]
      rw [stockOf_congr_medicines hmeds μ, ← hx, stockOf_setStock_same]
      rfl
    | cons y rest' =>
      have hne' : y :: rest' ≠ [] := by simp
      rw [ih _ hne' (fun z hz => hall z (List.mem_cons_of_mem _ hz))]
      rw [stockOf_congr_medicines hmeds μ, ← hx, stockOf_setStock_same]
      rw [List.getLast_cons hne']
      cases stockOf s x.med.id <;> rfl

theorem findMedicine_none_of_ids {s s' : DB}
    (h : s'.medicines.map (fun m => m.id) = s.medicines.map (fun m => m.id))
    {mid : Nat} (hn : findMedicine s mid = none) : findMedicine s' mid = none := by
  unfold findMedicine at hn ⊢
  rw [List.find?_eq_none] at hn ⊢
  intro x hx
  simp only [beq_iff_eq]
  intro hxe
  have hmem : mid ∈ s'.medicines.map (fun m => m.id) :=
    hxe ▸ List.mem_map_of_mem (fun m => m.id) hx
  rw [h] at hmem
  obtain ⟨y, hy, hye⟩ := List.mem_map.mp hmem
  exact hn y hy (by simp [hye])

theorem stockRoute_salesFrame (inp : CreateStockTransactionInput) (s : DB) :
    (stockCreateTransactionRoute inp s).2.salesTransactions = s.salesTransactions := by
  unfold stockCreateTransactionRoute createStockTransaction
  split
  · split
    · rfl
    · split
      · rfl
      · rfl
  · rfl

instance exceptDecEq {e a : Type} [DecidableEq e] [DecidableEq a] : DecidableEq (Except e a) :=
  fun x y =>
    match x, y with
    | Except.ok v, Except.ok w =>
      if h : v = w then isTrue (h ▸ rfl) else isFalse (fun hc => h (Except.ok.inj hc))
    | Except.error v, Except.error w =>
      if h : v = w then isTrue (h ▸ rfl) else isFalse (fun hc => h (Except.error.inj hc))
    | Except.ok _, Except.error _ => isFalse (fun hc => Except.noConfusion hc)
    | Except.error _, Except.ok _ => isFalse (fun hc => Except.noConfusion hc)

/-- Demonstration medicine: id 1, price 5.00, stock 10. -/
def med1 : Medicine :=
  { id := 1, name := "Paracetamol", description := none, unit := "tablet", price := 5,
    minimum_stock := 0, current_stock := 10, expiry_date := none, batch_number := none,
    supplier := none }

/-- Demonstration medicine: id 2, price 7.00, stock 8. -/
def med2 : Medicine :=
  { id := 2, name := "Amoxicillin", description := none, unit := "strip", price := 7,
    minimum_stock := 0, current_stock := 8, expiry_date := none, batch_number := none,
    supplier := none }

/-- A store holding only med1, with empty ledger and no sales. -/
def db0 : DB :=
  { medicines := [med1], stockTransactions := [], salesTransactions := [],
    salesTransactionItems := [], nextStockTxId := 1, nextSalesTxId := 1, nextItemId := 1 }

/-- A store holding med1 and med2, with empty ledger and no sales. -/
def db2 : DB :=
  { medicines := [med1, med2], stockTransactions := [], salesTransactions := [],
    salesTransactionItems := [], nextStockTxId := 1, nextSalesTxId := 1, nextItemId := 1 }

/-- Cart listing medicine 1 twice, 6 units per line: each line fits the
stock of 10, the combined 12 does not. -/
def dupCart : CreateSalesTransactionInput :=
  { patient_id := none, payment_method := PaymentMethod.CASH, payment_received := 100,
    notes := none,
    items := [{ medicine_id := 1, quantity := 6 }, { medicine_id := 1, quantity := 6 }] }

/-- Cart with two lines on distinct medicines. -/
def distinctCart : CreateSalesTransactionInput :=
  { patient_id := none, payment_method := PaymentMethod.CASH, payment_received := 100,
    notes := none,
    items := [{ medicine_id := 1, quantity := 2 }, { medicine_id := 2, quantity := 3 }] }

/-- Cart requesting 25 units of medicine 1, which stocks only 10. -/
def bigCart : CreateSalesTransactionInput :=
  { patient_id := none, payment_method := PaymentMethod.CASH, payment_received := 1000,
    notes := none, items := [{ medicine_id := 1, quantity := 25 }] }

/-- Stand-alone OUT movement of 25 units of medicine 1. -/
def outTooMuch : CreateStockTransactionInput :=
  { medicine_id := 1, type := StockTxType.OUT, quantity := 25, notes := none }

/-- Stand-alone IN movement with a zero quantity. -/
def zeroQtyIn : CreateStockTransactionInput :=
  { medicine_id := 1, type := StockTxType.IN, quantity := 0, notes := none }

/-- Stand-alone OUT movement with a negative quantity. -/
def negQtyOut : CreateStockTransactionInput :=
  { medicine_id := 1, type := StockTxType.OUT, quantity := -4, notes := none }

/-- The sales transaction that the duplicate-line cart persists against db0. -/
def saleTxDup : SalesTransaction :=
  { id := 1, patient_id := none, total_amount := 60, payment_method := PaymentMethod.CASH,
    payment_received := 100, change_amount := 40, status := TxStatus.COMPLETED, notes := none }

/-- The sales transaction that distinctCart persists against db2. -/
def saleTxDistinct : SalesTransaction :=
  { id := 1, patient_id := none, total_amount := 31, payment_method := PaymentMethod.CASH,
    payment_received := 100, change_amount := 69, status := TxStatus.COMPLETED, notes := none }

/-- An already-cancelled transaction row. -/
def txCancelled : SalesTransaction :=
  { id := 1, patient_id := none, total_amount := 10, payment_method := PaymentMethod.CASH,
    payment_received := 10, change_amount := 0, status := TxStatus.CANCELLED, notes := none }

/-- A store whose only transaction is already cancelled. -/
def dbCancelled : DB :=
  { medicines := [med1], stockTransactions := [], salesTransactions := [txCancelled],
    salesTransactionItems := [], nextStockTxId := 1, nextSalesTxId := 2, nextItemId := 1 }

/-- A completed transaction row. -/
def txCompleted : SalesTransaction :=
  { id := 1, patient_id := none, total_amount := 16, payment_method := PaymentMethod.CASH,
    payment_received := 20, change_amount := 4, status := TxStatus.COMPLETED, notes := none }

/-- Item of txCompleted whose medicine (id 99) no longer exists. -/
def rowGone : SalesTransactionItem :=
  { id := 1, transaction_id := 1, medicine_id := 99, quantity := 3, unit_price := 2,
    total_price := 6 }

/-- Item of txCompleted whose medicine (id 1) still exists. -/
def rowThere : SalesTransactionItem :=
  { id := 2, transaction_id := 1, medicine_id := 1, quantity := 2, unit_price := 5,
    total_price := 10 }

/-- A store holding a completed sale one of whose items references a
medicine that has vanished from the medicines table. -/
def dbGone : DB :=
  { medicines := [med1], stockTransactions := [], salesTransactions := [txCompleted],
    salesTransactionItems := [rowGone, rowThere], nextStockTxId := 1, nextSalesTxId := 2,
    nextItemId := 3 }

/-- C7: every call of the exposed stock-movement operation with a
non-positive quantity fails with the InvalidQuantity rejection (raised by
createStockTransactionInputSchema before the handler runs) and leaves the
state untouched, for IN as well as OUT movements. -/
theorem C7_invalid_quantity_rejected (inp : CreateStockTransactionInput) (s : DB)
    (h : inp.quantity ≤ 0) :
    stockCreateTransactionRoute inp s = (Except.error ApiError.invalidQuantity, s) := by
  unfold stockCreateTransactionRoute
  rw [if_neg (by omega)]

/-- C7 witness: the zero-quantity IN movement and a negative-quantity OUT
movement against db0 are both rejected with the state unchanged. -/
theorem C7_witness :
    stockCreateTransactionRoute zeroQtyIn db0 = (Except.error ApiError.invalidQuantity, db0) ∧
    stockCreateTransactionRoute negQtyOut db0 = (Except.error ApiError.invalidQuantity, db0) :=
  ⟨C7_invalid_quantity_rejected zeroQtyIn db0 (by decide),
   C7_invalid_quantity_rejected negQtyOut db0 (by decide)⟩

/-- C3: whenever createSalesTransaction returns an error — unknown medicine,
insufficient stock on any cart line, payment below the total, or the schema
rejection — the state it returns is exactly the state it was given: no
SalesTransaction row, no SalesTransactionItem row, no StockTransaction row
and no stock counter change is persisted for the attempt. -/
theorem C3_sale_atomic_on_failure (inp : CreateSalesTransactionInput) (s : DB)
    (e : ApiError) (s' : DB)
    (h : salesCreateTransactionRoute inp s = (Except.error e, s')) : s' = s :=
  salesRoute_error_state h

/-- C3 witness: the sale of 25 units against a stock of 10 fails and leaves
db0 exactly as it was. -/
theorem C3_witness : (salesCreateTransactionRoute bigCart db0).2 = db0 :=
  C3_sale_atomic_on_failure bigCart db0
    (ApiError.insufficientStockFor "Paracetamol" 10 25)
    (salesCreateTransactionRoute bigCart db0).2 (by decide)

/-- C2: no sequence of the three exposed operations drives any stock
counter below zero; a stand-alone OUT movement whose quantity exceeds the
stored counter is rejected in full with InsufficientStock carrying the
available and requested quantities and no state change; and a sale whose
first offending cart line requests more than the validation-time counter is
rejected in full with InsufficientStock carrying the medicine name and the
available and requested quantities, with no state change. -/
theorem C2_no_negative_stock :
    (∀ (ops : List Op) (s : DB), NonnegDB s → NonnegDB (runOps ops s)) ∧
    (∀ (inp : CreateStockTransactionInput) (s : DB) (m : Medicine),
        0 < inp.quantity → inp.type = StockTxType.OUT →
        findMedicine s inp.medicine_id = some m → m.current_stock < inp.quantity →
        stockCreateTransactionRoute inp s
          = (Except.error (ApiError.insufficientStock m.current_stock inp.quantity), s)) ∧
    (∀ (inp : CreateSalesTransactionInput) (s : DB) (med : Medicine) (q : Int),
        0 < inp.payment_received → inp.items ≠ [] → (∀ it ∈ inp.items, 0 < it.quantity) →
        firstShort s inp.items = some (med, q) →
        salesCreateTransactionRoute inp s
          = (Except.error (ApiError.insufficientStockFor med.name med.current_stock q), s)) := by
  refine ⟨runOps_nonneg, ?_, ?_⟩
  · intro inp s m hq ht hf hlt
    unfold stockCreateTransactionRoute createStockTransaction
    rw [if_pos hq]
    split
    · rename_i heq
      rw [hf] at heq
      cases heq
    · rename_i med0 heq
      rw [hf] at heq
      injection heq with heq
      subst heq
      rw [if_pos ⟨ht, hlt⟩]
  · intro inp s med q hp hne hqs hshort
    unfold salesCreateTransactionRoute createSalesTransaction
    rw [if_pos ⟨hp, hne, hqs⟩]
    split
    · rename_i e heq
      rw [validateSaleItems_firstShort hshort] at heq
      injection heq with heq
      subst heq
      rfl
    · rename_i l heq
      rw [validateSaleItems_firstShort hshort] at heq
      cases heq

/-- C2 witness: the duplicate-line sale followed by its cancellation keeps
db0 non-negative; the 25-unit OUT movement and the 25-unit cart line are
both rejected against the 10-unit stock with the state unchanged. -/
theorem C2_witness :
    NonnegDB (runOps [Op.sale dupCart, Op.cancel 1] db0) ∧
    stockCreateTransactionRoute outTooMuch db0
      = (Except.error (ApiError.insufficientStock 10 25), db0) ∧
    salesCreateTransactionRoute bigCart db0
      = (Except.error (ApiError.insufficientStockFor "Paracetamol" 10 25), db0) :=
  ⟨C2_no_negative_stock.1 [Op.sale dupCart, Op.cancel 1] db0 (by decide),
   C2_no_negative_stock.2.1 outTooMuch db0 med1 (by decide) rfl (by decide) (by decide),
   C2_no_negative_stock.2.2 bigCart db0 med1 25 (by decide) (by decide) (by decide) (by decide)⟩

theorem cancel_not_found {id : Nat} {s : DB} (h : findSalesTransaction s id = none) :
    cancelSalesTransaction id s = (false, s) := by
  unfold cancelSalesTransaction
  split
  · rfl
  · rename_i tx heq
    rw [h] at heq
    cases heq

theorem cancel_already_cancelled {id : Nat} {s : DB} {t : SalesTransaction}
    (hf : findSalesTransaction s id = some t) (hc : t.status = TxStatus.CANCELLED) :
    cancelSalesTransaction id s = (false, s) := by
  unfold cancelSalesTransaction
  split
  · rfl
  · rename_i t' heq
    rw [hf] at heq
    injection heq with heq
    subst heq
    rw [if_pos hc]

/-- C6: cancelSalesTransaction answers (false, unchanged state) both for an
id with no transaction row and for a transaction already CANCELLED — the
boolean result cannot distinguish the two and neither raises an error;
CANCELLED is terminal under every exposed operation; and a successful
cancellation makes any second cancellation of the same id return false. -/
theorem C6_cancellation_terminal :
    (∀ (id : Nat) (s : DB), findSalesTransaction s id = none →
        cancelSalesTransaction id s = (false, s)) ∧
    (∀ (id : Nat) (s : DB) (t : SalesTransaction), findSalesTransaction s id = some t →
        t.status = TxStatus.CANCELLED → cancelSalesTransaction id s = (false, s)) ∧
    (∀ (s : DB) (id : Nat) (op : Op), txStatusOf s id = some TxStatus.CANCELLED →
        txStatusOf (applyOp s op) id = some TxStatus.CANCELLED) ∧
    (∀ (id : Nat) (s s' : DB), cancelSalesTransaction id s = (true, s') →
        cancelSalesTransaction id s' = (false, s')) := by
  refine ⟨fun id s h => cancel_not_found h,
          fun id s t hf hc => cancel_already_cancelled hf hc, ?_, ?_⟩
  · intro s id op h
    obtain ⟨t, hft, hts⟩ := Option.map_eq_some'.mp h
    cases op with
    | stockTx inp =>
      rw [txStatusOf_congr (stockRoute_salesFrame inp s).symm id] at h
      exact h
    | sale inp =>
      show txStatusOf (salesCreateTransactionRoute inp s).2 id = some TxStatus.CANCELLED
      cases hr : (salesCreateTransactionRoute inp s).1 with
      | error e =>
        have hpair : salesCreateTransactionRoute inp s
            = (Except.error e, (salesCreateTransactionRoute inp s).2) := by
          rw [← hr]
        rw [salesRoute_error_state hpair]
        exact h
      | ok tx =>
        have hpair : salesCreateTransactionRoute inp s
            = (Except.ok tx, (salesCreateTransactionRoute inp s).2) := by
          rw [← hr]
        obtain ⟨hcond, l, hval, hpay, htx, hs'⟩ := sale_ok_inv hpair
        rw [hs']
        obtain ⟨_, _, hsales1, _, _, _⟩ := insertSaleItems_spec s.nextSalesTxId
          (l.map itemWithPrice)
          { s with salesTransactions := s.salesTransactions ++ [tx],
                   nextSalesTxId := s.nextSalesTxId + 1 }
        obtain ⟨hsales2, _, _, _, _, _⟩ := applySaleStock_spec s.nextSalesTxId l
          (insertSaleItems
            { s with salesTransactions := s.salesTransactions ++ [tx],
                     nextSalesTxId := s.nextSalesTxId + 1 }
            s.nextSalesTxId (l.map itemWithPrice))
        unfold txStatusOf findSalesTransaction
        rw [hsales2, hsales1]
        show Option.map (fun t => t.status)
          (List.find? (fun t => t.id == id) (s.salesTransactions ++ [tx])) = some TxStatus.CANCELLED
        rw [find?_append_some hft]
        simpa using hts
    | cancel cid =>
      show txStatusOf (cancelSalesTransaction cid s).2 id = some TxStatus.CANCELLED
      rcases cancel_cases cid s with hcase | ⟨tx, hfc, hns, hcase⟩
      · rw [hcase]
        exact h
      · rw [hcase]
        obtain ⟨_, hsales, _, _, _, _⟩ := restoreItems_spec cid
          (s.salesTransactionItems.filter (fun it => it.transaction_id == cid))
          (setSalesStatus s cid TxStatus.CANCELLED)
        show txStatusOf (restoreItems cid (setSalesStatus s cid TxStatus.CANCELLED)
          (s.salesTransactionItems.filter (fun it => it.transaction_id == cid))) id
            = some TxStatus.CANCELLED
        rw [txStatusOf_congr hsales id]
        unfold txStatusOf
        rw [findSales_setStatus, hft]
        by_cases hte : t.id = cid <;> simp [hte, hts]
  · intro id s s' h
    have hst := cancel_true_status h
    obtain ⟨t, hft, hts⟩ := Option.map_eq_some'.mp hst
    exact cancel_already_cancelled hft hts

/-- C6 witness: cancelling the absent id 5 in db0 and the already-cancelled
id 1 in dbCancelled both answer false with no change; a stock movement
leaves the cancelled status in place; and after the completed sale in
dbGone is cancelled once, a second cancellation of the same id fails. -/
theorem C6_witness :
    cancelSalesTransaction 5 db0 = (false, db0) ∧
    cancelSalesTransaction 1 dbCancelled = (false, dbCancelled) ∧
    txStatusOf (applyOp dbCancelled (Op.stockTx outTooMuch)) 1 = some TxStatus.CANCELLED ∧
    cancelSalesTransaction 1 (cancelSalesTransaction 1 dbGone).2
      = (false, (cancelSalesTransaction 1 dbGone).2) :=
  ⟨C6_cancellation_terminal.1 5 db0 (by decide),
   C6_cancellation_terminal.2.1 1 dbCancelled txCancelled (by decide) (by decide),
   C6_cancellation_terminal.2.2.1 dbCancelled 1 (Op.stockTx outTooMuch) (by decide),
   C6_cancellation_terminal.2.2.2 1 dbGone (cancelSalesTransaction 1 dbGone).2 rfl⟩

/-- The medicineData snapshot list the duplicate-line cart resolves to. -/
def lDup : List MedData :=
  [{ med := med1, requestedQuantity := 6 }, { med := med1, requestedQuantity := 6 }]

theorem totalAmount_lDup : totalAmountOf lDup = 60 := by
  simp [totalAmountOf, lDup, med1]
  norm_num

theorem dupRoute_eq :
    salesCreateTransactionRoute dupCart db0
      = (Except.ok saleTxDup, saleWriteState dupCart db0 lDup) := by
  have hval : validateSaleItems db0 dupCart.items = Except.ok lDup := by decide
  have hcond : 0 < dupCart.payment_received ∧ dupCart.items ≠ [] ∧
      ∀ it ∈ dupCart.items, 0 < it.quantity := by
    refine ⟨?_, by decide, by decide⟩
    show (0 : Rat) < 100
    norm_num
  have hpay : ¬ dupCart.payment_received - totalAmountOf lDup < 0 := by
    rw [totalAmount_lDup]
    show ¬ (100 : Rat) - 60 < 0
    norm_num
  have h := sale_ok_build hcond hval hpay
  rw [h]
  have htx : mkSaleTx dupCart db0 lDup = saleTxDup := by
    simp [mkSaleTx, saleTxDup, totalAmount_lDup, dupCart, db0]
    norm_num
  rw [htx]

/-- C1: code bug exhibited. After the duplicate-line sale (two lines of 6
units of medicine 1 against a stock of 10, both accepted), the stored
counter is 4 = 10 minus only the last line, while the ledger holds two OUT
rows summing to -12; the counter no longer equals the stock at creation
plus the signed ledger sum, so the ledger/counter agreement the claim
states is violated by a completed createSalesTransaction. -/
theorem C1_ledger_counter_divergence :
    (salesCreateTransactionRoute dupCart db0).1 = Except.ok saleTxDup ∧
    stockOf db0 1 = some 10 ∧
    signedLedgerSum db0 1 = 0 ∧
    stockOf (salesCreateTransactionRoute dupCart db0).2 1 = some 4 ∧
    signedLedgerSum (salesCreateTransactionRoute dupCart db0).2 1 = -12 ∧
    ¬ ledgerAgreesFrom db0 (salesCreateTransactionRoute dupCart db0).2 := by
  rw [dupRoute_eq]
  refine ⟨rfl, by decide, by decide, by decide, by decide, by decide⟩

theorem applySaleStock_nextStockTxId (tid : Nat) :
    ∀ (l : List MedData) (s : DB),
      (applySaleStock tid s l).nextStockTxId = s.nextStockTxId + l.length := by
  intro l
  induction l with
  | nil =>
    intro s
    simp [applySaleStock]
  | cons m rest ih =>
    intro s
    simp only [applySaleStock]
    rw [ih]
    show s.nextStockTxId + 1 + rest.length = s.nextStockTxId + (m :: rest).length
    simp [List.length_cons]
    omega

theorem saleWriteState_fields (inp : CreateSalesTransactionInput) (s : DB) (l : List MedData) :
    (saleWriteState inp s l).salesTransactions = s.salesTransactions ++ [mkSaleTx inp s l] ∧
    (saleWriteState inp s l).salesTransactionItems
      = s.salesTransactionItems ++ saleRowsFrom s.nextItemId s.nextSalesTxId (l.map itemWithPrice) ∧
    (saleWriteState inp s l).stockTransactions
      = s.stockTransactions ++ outEntriesFrom s.nextStockTxId s.nextSalesTxId (l.map pairOfMedData) ∧
    (saleWriteState inp s l).nextSalesTxId = s.nextSalesTxId + 1 ∧
    (saleWriteState inp s l).nextStockTxId = s.nextStockTxId + l.length ∧
    (saleWriteState inp s l).medicines.map (fun m => m.id) = s.medicines.map (fun m => m.id) := by
  unfold saleWriteState
  have hIns := insertSaleItems_spec s.nextSalesTxId (l.map itemWithPrice)
    { s with salesTransactions := s.salesTransactions ++ [mkSaleTx inp s l],
             nextSalesTxId := s.nextSalesTxId + 1 }
  obtain ⟨i1, i2, i3, i4, i5, i6⟩ := hIns
  have hApp := applySaleStock_spec s.nextSalesTxId l
    (insertSaleItems
      { s with salesTransactions := s.salesTransactions ++ [mkSaleTx inp s l],
               nextSalesTxId := s.nextSalesTxId + 1 }
      s.nextSalesTxId (l.map itemWithPrice))
  obtain ⟨a1, a2, a3, a4, a5, a6⟩ := hApp
  have hAppNext : (applySaleStock s.nextSalesTxId
      (insertSaleItems
        { s with salesTransactions := s.salesTransactions ++ [mkSaleTx inp s l],
                 nextSalesTxId := s.nextSalesTxId + 1 }
        s.nextSalesTxId (l.map itemWithPrice)) l).nextStockTxId
      = s.nextStockTxId + l.length := by
    have := applySaleStock_nextStockTxId s.nextSalesTxId l
      (insertSaleItems
        { s with salesTransactions := s.salesTransactions ++ [mkSaleTx inp s l],
                 nextSalesTxId := s.nextSalesTxId + 1 }
        s.nextSalesTxId (l.map itemWithPrice))
    rw [this, i5]
  refine ⟨?_, ?_, ?_, ?_, hAppNext, ?_⟩
  · rw [a1, i3]
  · rw [a2, i4]
  · rw [a5, i2, i5]
  · rw [a3, i6]
  · rw [a6, i1]

theorem saleWriteState_stockOf_nodup (inp : CreateSalesTransactionInput) (s : DB)
    (l : List MedData) (hnd : (l.map (fun x => x.med.id)).Nodup) (μ : Nat) :
    stockOf (saleWriteState inp s l) μ =
      match l.find? (fun x => x.med.id == μ) with
      | some x => (stockOf s μ).map (fun _ => x.med.current_stock - x.requestedQuantity)
      | none => stockOf s μ := by
  unfold saleWriteState
  rw [applySaleStock_stockOf s.nextSalesTxId μ l _ hnd]
  have hIns := insertSaleItems_spec s.nextSalesTxId (l.map itemWithPrice)
    { s with salesTransactions := s.salesTransactions ++ [mkSaleTx inp s l],
             nextSalesTxId := s.nextSalesTxId + 1 }
  have hst : stockOf (insertSaleItems
      { s with salesTransactions := s.salesTransactions ++ [mkSaleTx inp s l],
               nextSalesTxId := s.nextSalesTxId + 1 }
      s.nextSalesTxId (l.map itemWithPrice)) μ = stockOf s μ := by
    rw [stockOf_congr_medicines hIns.1 μ]
    rfl
  rw [hst]

theorem saleWriteState_stockOf_uniform (inp : CreateSalesTransactionInput) (s : DB)
    (m : Medicine) (l : List MedData) (hlne : l ≠ [])
    (hall : ∀ x ∈ l, x.med.id = m.id) (hm : findMedicine s m.id = some m) :
    stockOf (saleWriteState inp s l) m.id
      = some ((l.getLast hlne).med.current_stock - (l.getLast hlne).requestedQuantity) := by
  unfold saleWriteState
  rw [applySaleStock_stockOf_uniform s.nextSalesTxId m.id l _ hlne hall]
  have hIns := insertSaleItems_spec s.nextSalesTxId (l.map itemWithPrice)
    { s with salesTransactions := s.salesTransactions ++ [mkSaleTx inp s l],
             nextSalesTxId := s.nextSalesTxId + 1 }
  have hst : stockOf (insertSaleItems
      { s with salesTransactions := s.salesTransactions ++ [mkSaleTx inp s l],
               nextSalesTxId := s.nextSalesTxId + 1 }
      s.nextSalesTxId (l.map itemWithPrice)) m.id = some m.current_stock := by
    rw [stockOf_congr_medicines hIns.1 m.id]
    show stockOf s m.id = some m.current_stock
    unfold stockOf
    rw [hm]
    rfl
  rw [hst]
  rfl

/-- C9: a cart all of whose lines request the same medicine, each line
fitting the pre-sale stock but the combined quantity exceeding it, passes
validation — every line is checked against the stock read before any write
— so the sale completes without an InsufficientStock error, appends one OUT
ledger row per line, and leaves the counter at the pre-sale stock minus
only the last line's quantity. -/
theorem C9_duplicate_lines_bypass_check (s : DB) (inp : CreateSalesTransactionInput)
    (m : Medicine)
    (hm : findMedicine s m.id = some m)
    (hall : ∀ it ∈ inp.items, it.medicine_id = m.id)
    (hlen : 2 ≤ inp.items.length)
    (hq : ∀ it ∈ inp.items, 0 < it.quantity ∧ it.quantity ≤ m.current_stock)
    (_hover : m.current_stock < (inp.items.map (fun it => it.quantity)).sum)
    (hp : 0 < inp.payment_received)
    (hpay : m.price * (((inp.items.map (fun it => it.quantity)).sum : Int) : Rat)
              ≤ inp.payment_received) :
    ∃ (tx : SalesTransaction) (s1 : DB) (hne : inp.items ≠ []),
      salesCreateTransactionRoute inp s = (Except.ok tx, s1) ∧
      stockOf s1 m.id = some (m.current_stock - (inp.items.getLast hne).quantity) ∧
      s1.stockTransactions = s.stockTransactions
        ++ outEntriesFrom s.nextStockTxId tx.id (inp.items.map pairOfItem) := by
  have hne : inp.items ≠ [] := by
    intro hcon
    rw [hcon] at hlen
    simp at hlen
  have hval := validateSaleItems_uniform hm
    (fun it hit => ⟨hall it hit, not_lt.mpr (hq it hit).2⟩)
  have hpaynn : ¬ inp.payment_received
      - totalAmountOf (inp.items.map (fun it => { med := m, requestedQuantity := it.quantity }))
        < 0 := by
    rw [totalAmountOf_uniform, sub_neg]
    exact not_lt.mpr hpay
  have hroute := sale_ok_build ⟨hp, hne, fun it hit => (hq it hit).1⟩ hval hpaynn
  refine ⟨_, _, hne, hroute, ?_, ?_⟩
  · have hlne : inp.items.map
        (fun it => ({ med := m, requestedQuantity := it.quantity } : MedData)) ≠ [] := by
      simpa using hne
    rw [saleWriteState_stockOf_uniform inp s m _ hlne
      (fun x hx => by
        obtain ⟨it, hit, hxe⟩ := List.mem_map.mp hx
        rw [← hxe]) hm]
    rw [List.getLast_map]
  · obtain ⟨_, _, h3, _, _, _⟩ := saleWriteState_fields inp s
      (inp.items.map (fun it => { med := m, requestedQuantity := it.quantity }))
    rw [h3]
    have hpairs : (inp.items.map
        (fun it => ({ med := m, requestedQuantity := it.quantity } : MedData))).map pairOfMedData
          = inp.items.map pairOfItem := by
      rw [List.map_map]
      apply List.map_congr_left
      intro it hit
      simp [Function.comp, pairOfMedData, pairOfItem, hall it hit]
    rw [hpairs]
    rfl

/-- C9 witness: the duplicate-line cart (6 + 6 against a stock of 10)
completes against db0, with the counter left at 10 - 6 = 4 and two OUT
ledger rows appended. -/
theorem C9_witness :
    ∃ (tx : SalesTransaction) (s1 : DB) (hne : dupCart.items ≠ []),
      salesCreateTransactionRoute dupCart db0 = (Except.ok tx, s1) ∧
      stockOf s1 med1.id = some (med1.current_stock - (dupCart.items.getLast hne).quantity) ∧
      s1.stockTransactions = db0.stockTransactions
        ++ outEntriesFrom db0.nextStockTxId tx.id (dupCart.items.map pairOfItem) :=
  C9_duplicate_lines_bypass_check db0 dupCart med1 (by decide) (by decide) (by decide)
    (by decide) (by decide)
    (by
      show (0 : Rat) < 100
      norm_num)
    (by
      show med1.price * (((dupCart.items.map (fun it => it.quantity)).sum : Int) : Rat)
        ≤ dupCart.payment_received
      norm_num [med1, dupCart])

/-- C8: every item row persisted by a successful createSalesTransaction
carries a unit_price equal to the referenced medicine's price as read at
validation time, and a total_price equal to that copied price times the
quantity; and the modelled updateMedicine — however it patches medicine
fields, price included — changes no sales_transaction_items row (nor any
sales or ledger row). -/
theorem C8_pricing_snapshot (inp : CreateSalesTransactionInput) (s : DB)
    (tx : SalesTransaction) (s1 : DB)
    (hwf : WFdb s)
    (hok : salesCreateTransactionRoute inp s = (Except.ok tx, s1)) :
    (∀ it ∈ s1.salesTransactionItems.filter (fun r => r.transaction_id == tx.id),
        ∃ med, findMedicine s it.medicine_id = some med ∧
          it.unit_price = med.price ∧
          it.total_price = med.price * (it.quantity : Rat)) ∧
    (∀ u : UpdateMedicineInput,
        (updateMedicine u s1).salesTransactionItems = s1.salesTransactionItems ∧
        (updateMedicine u s1).salesTransactions = s1.salesTransactions ∧
        (updateMedicine u s1).stockTransactions = s1.stockTransactions) := by
  obtain ⟨hcond, l, hval, hpay, htx, hs1⟩ := sale_ok_inv hok
  constructor
  · intro it hit
    have htxid : tx.id = s.nextSalesTxId := by rw [htx]
    have hs1' : s1 = saleWriteState inp s l := by
      rw [hs1, htx]
      rfl
    obtain ⟨_, hitems, _, _, _, _⟩ := saleWriteState_fields inp s l
    rw [hs1', hitems] at hit
    rw [List.filter_append] at hit
    have hold : (s.salesTransactionItems.filter (fun r => r.transaction_id == tx.id)) = [] := by
      rw [List.filter_eq_nil_iff]
      intro r hr
      have := hwf.2 r hr
      simp only [beq_iff_eq]
      omega
    rw [hold, List.nil_append] at hit
    have hmem := List.mem_of_mem_filter hit
    obtain ⟨_, d, hd, hmid, hqd, hup, htp⟩ := saleRowsFrom_mem _ _ _ _ hmem
    obtain ⟨md, hmd, hde⟩ := List.mem_map.mp hd
    have hfind := (validateSaleItems_ok_mem hval md hmd).1
    refine ⟨md.med, ?_, ?_, ?_⟩
    · rw [hmid, ← hde]
      exact hfind
    · rw [hup, ← hde]
      rfl
    · rw [htp, hqd, ← hde]
      rfl
  · intro u
    exact ⟨rfl, rfl, rfl⟩

/-- The medicineData snapshot list distinctCart resolves to against db2. -/
def lDist : List MedData :=
  [{ med := med1, requestedQuantity := 2 }, { med := med2, requestedQuantity := 3 }]

theorem totalAmount_lDist : totalAmountOf lDist = 31 := by
  simp [totalAmountOf, lDist, med1, med2]
  norm_num

theorem distRoute_eq :
    salesCreateTransactionRoute distinctCart db2
      = (Except.ok (mkSaleTx distinctCart db2 lDist), saleWriteState distinctCart db2 lDist) := by
  have hval : validateSaleItems db2 distinctCart.items = Except.ok lDist := by decide
  have hcond : 0 < distinctCart.payment_received ∧ distinctCart.items ≠ [] ∧
      ∀ it ∈ distinctCart.items, 0 < it.quantity := by
    refine ⟨?_, by decide, by decide⟩
    show (0 : Rat) < 100
    norm_num
  have hpay : ¬ distinctCart.payment_received - totalAmountOf lDist < 0 := by
    rw [totalAmount_lDist]
    show ¬ (100 : Rat) - 31 < 0
    norm_num
  exact sale_ok_build hcond hval hpay

/-- C8 witness: the two-line distinct-medicine sale against db2 persists
items priced from the validation-time medicine rows, and a later price
patch on medicine 1 leaves the item rows untouched. -/
theorem C8_witness :
    (∀ it ∈ (saleWriteState distinctCart db2 lDist).salesTransactionItems.filter
        (fun r => r.transaction_id == (mkSaleTx distinctCart db2 lDist).id),
        ∃ med, findMedicine db2 it.medicine_id = some med ∧
          it.unit_price = med.price ∧
          it.total_price = med.price * (it.quantity : Rat)) ∧
    (∀ u : UpdateMedicineInput,
        (updateMedicine u (saleWriteState distinctCart db2 lDist)).salesTransactionItems
          = (saleWriteState distinctCart db2 lDist).salesTransactionItems ∧
        (updateMedicine u (saleWriteState distinctCart db2 lDist)).salesTransactions
          = (saleWriteState distinctCart db2 lDist).salesTransactions ∧
        (updateMedicine u (saleWriteState distinctCart db2 lDist)).stockTransactions
          = (saleWriteState distinctCart db2 lDist).stockTransactions) :=
  C8_pricing_snapshot distinctCart db2 (mkSaleTx distinctCart db2 lDist)
    (saleWriteState distinctCart db2 lDist) (by decide) distRoute_eq

theorem findMedicine_isSome_iff (s : DB) (mid : Nat) :
    (findMedicine s mid).isSome = true ↔ mid ∈ s.medicines.map (fun m => m.id) := by
  unfold findMedicine
  rw [List.find?_isSome]
  constructor
  · rintro ⟨x, hx, hpx⟩
    have hxe : x.id = mid := by simpa using hpx
    exact hxe ▸ List.mem_map_of_mem (fun m => m.id) hx
  · intro hmem
    obtain ⟨x, hx, hxe⟩ := List.mem_map.mp hmem
    exact ⟨x, hx, by simp [hxe]⟩

/-- C4 (amended): for a completed sale whose cart lines reference pairwise
distinct medicines, cancelling it right away restores every medicine's
counter to its pre-sale value, flips the status to CANCELLED, returns true,
and appends exactly one compensating IN ledger row per original line
carrying that line's original quantity — the reversal reads only the
persisted item quantities and never re-derives pricing. -/
theorem C4_cancellation_reversible (inp : CreateSalesTransactionInput) (s : DB)
    (tx : SalesTransaction) (s1 : DB)
    (hwf : WFdb s)
    (hnd : (inp.items.map (fun it => it.medicine_id)).Nodup)
    (hok : salesCreateTransactionRoute inp s = (Except.ok tx, s1)) :
    ∃ s2 : DB, cancelSalesTransaction tx.id s1 = (true, s2) ∧
      txStatusOf s2 tx.id = some TxStatus.CANCELLED ∧
      (∀ mid : Nat, stockOf s2 mid = stockOf s mid) ∧
      (s1.salesTransactionItems.filter (fun r => r.transaction_id == tx.id)).map pairOfRow
        = inp.items.map pairOfItem ∧
      s2.stockTransactions = s1.stockTransactions
        ++ inEntriesFrom s1.nextStockTxId tx.id (inp.items.map pairOfItem) := by
  obtain ⟨hcond, l, hval, hpay, htx, hs1⟩ := sale_ok_inv hok
  have hs1' : s1 = saleWriteState inp s l := by
    rw [hs1, htx]
    rfl
  have htxid : tx.id = s.nextSalesTxId := by rw [htx]
  obtain ⟨f1, f2, f3, f4, f5, f6⟩ := saleWriteState_fields inp s l
  have hpairs : l.map pairOfMedData = inp.items.map pairOfItem := validateSaleItems_ok_pairs hval
  have hfilter : s1.salesTransactionItems.filter (fun r => r.transaction_id == tx.id)
      = saleRowsFrom s.nextItemId s.nextSalesTxId (l.map itemWithPrice) := by
    rw [hs1', f2, List.filter_append]
    have hold : s.salesTransactionItems.filter (fun r => r.transaction_id == tx.id) = [] := by
      rw [List.filter_eq_nil_iff]
      intro r hr
      have := hwf.2 r hr
      simp only [beq_iff_eq]
      omega
    have hnew : (saleRowsFrom s.nextItemId s.nextSalesTxId (l.map itemWithPrice)).filter
        (fun r => r.transaction_id == tx.id)
          = saleRowsFrom s.nextItemId s.nextSalesTxId (l.map itemWithPrice) := by
      rw [List.filter_eq_self]
      intro r hr
      have := saleRowsFrom_tid _ _ _ r hr
      simp [this, htxid]
    rw [hold, hnew, List.nil_append]
  have hrowpairs : (saleRowsFrom s.nextItemId s.nextSalesTxId (l.map itemWithPrice)).map pairOfRow
      = inp.items.map pairOfItem := by
    rw [saleRowsFrom_map_pair]
    have hdp : (l.map itemWithPrice).map pairOfDraft = l.map pairOfMedData := by
      rw [List.map_map]
      apply List.map_congr_left
      intro x _
      rfl
    rw [hdp, hpairs]
  have hfindtx : findSalesTransaction s1 tx.id = some tx := by
    rw [hs1']
    unfold findSalesTransaction
    rw [f1]
    have hnone : s.salesTransactions.find? (fun t => t.id == tx.id) = none := by
      rw [List.find?_eq_none]
      intro t ht
      have := hwf.1 t ht
      simp only [beq_iff_eq]
      omega
    rw [find?_append_of_none hnone]
    have hmk : mkSaleTx inp s l = tx := htx.symm
    rw [hmk]
    simp [List.find?]
  have hstatus : tx.status ≠ TxStatus.CANCELLED := by
    rw [htx]
    simp
  have hcancel := cancel_build hfindtx hstatus
  rw [hfilter] at hcancel
  have hndrows : ((saleRowsFrom s.nextItemId s.nextSalesTxId (l.map itemWithPrice)).map
      (fun r => r.medicine_id)).Nodup := by
    have h1 : (saleRowsFrom s.nextItemId s.nextSalesTxId (l.map itemWithPrice)).map
        (fun r => r.medicine_id)
          = ((saleRowsFrom s.nextItemId s.nextSalesTxId (l.map itemWithPrice)).map
              pairOfRow).map (fun p => p.1) := by
      rw [List.map_map]
      rfl
    have h2 : inp.items.map (fun it => it.medicine_id)
        = (inp.items.map pairOfItem).map (fun p => p.1) := by
      rw [List.map_map]
      rfl
    rw [h1, hrowpairs, ← h2]
    exact hnd
  have hndl : (l.map (fun x => x.med.id)).Nodup := by
    have h1 : l.map (fun x => x.med.id) = (l.map pairOfMedData).map (fun p => p.1) := by
      rw [List.map_map]
      rfl
    have h2 : inp.items.map (fun it => it.medicine_id)
        = (inp.items.map pairOfItem).map (fun p => p.1) := by
      rw [List.map_map]
      rfl
    rw [h1, hpairs, ← h2]
    exact hnd
  have hbridge : ∀ mid : Nat,
      ((saleRowsFrom s.nextItemId s.nextSalesTxId (l.map itemWithPrice)).find?
        (fun r => r.medicine_id == mid)).map pairOfRow
      = (l.find? (fun x => x.med.id == mid)).map pairOfMedData := by
    intro mid
    have e1 : ((fun (p : Nat × Int) => p.1 == mid) ∘ pairOfRow)
        = (fun (r : SalesTransactionItem) => r.medicine_id == mid) := rfl
    have e2 : ((fun (p : Nat × Int) => p.1 == mid) ∘ pairOfMedData)
        = (fun (x : MedData) => x.med.id == mid) := rfl
    calc ((saleRowsFrom s.nextItemId s.nextSalesTxId (l.map itemWithPrice)).find?
            (fun r => r.medicine_id == mid)).map pairOfRow
        = ((saleRowsFrom s.nextItemId s.nextSalesTxId (l.map itemWithPrice)).map
            pairOfRow).find? (fun p => p.1 == mid) := by
          rw [List.find?_map, e1]
      _ = (inp.items.map pairOfItem).find? (fun p => p.1 == mid) := by rw [hrowpairs]
      _ = (l.map pairOfMedData).find? (fun p => p.1 == mid) := by rw [hpairs]
      _ = (l.find? (fun x => x.med.id == mid)).map pairOfMedData := by
          rw [List.find?_map, e2]
  refine ⟨_, hcancel, cancel_true_status hcancel, ?_, ?_, ?_⟩
  · intro mid
    rw [restoreItems_stockOf tx.id mid
      (saleRowsFrom s.nextItemId s.nextSalesTxId (l.map itemWithPrice))
      (setSalesStatus s1 tx.id TxStatus.CANCELLED) hndrows]
    have hbase : stockOf (setSalesStatus s1 tx.id TxStatus.CANCELLED) mid = stockOf s1 mid := by
      apply stockOf_congr_medicines
      rfl
    rw [hbase, hs1', saleWriteState_stockOf_nodup inp s l hndl mid]
    cases hfl : l.find? (fun x => x.med.id == mid) with
    | none =>
      have hb := hbridge mid
      rw [hfl] at hb
      simp only [Option.map_none'] at hb
      have hfr := Option.map_eq_none'.mp hb
      rw [hfr]
    | some x =>
      have hb := hbridge mid
      rw [hfl] at hb
      simp only [Option.map_some'] at hb
      obtain ⟨r, hfr, hpr⟩ := Option.map_eq_some'.mp hb
      rw [hfr]
      have hxmem : x ∈ l := List.mem_of_find?_eq_some hfl
      have hxid : x.med.id = mid := by
        have := List.find?_some hfl
        simpa using this
      have hsx : stockOf s mid = some x.med.current_stock := by
        unfold stockOf
        rw [← hxid, (validateSaleItems_ok_mem hval x hxmem).1]
        rfl
      have hq : r.quantity = x.requestedQuantity := congrArg Prod.snd hpr
      simp only [hsx, Option.map_some']
      rw [hq]
      congr 1
      omega
  · rw [hfilter, hrowpairs]
  · obtain ⟨r1, r2, r3, r4, r5, r6⟩ := restoreItems_spec tx.id
      (saleRowsFrom s.nextItemId s.nextSalesTxId (l.map itemWithPrice))
      (setSalesStatus s1 tx.id TxStatus.CANCELLED)
    rw [r6]
    have hex : (saleRowsFrom s.nextItemId s.nextSalesTxId (l.map itemWithPrice)).filter
        (fun it => (findMedicine (setSalesStatus s1 tx.id TxStatus.CANCELLED)
          it.medicine_id).isSome)
          = saleRowsFrom s.nextItemId s.nextSalesTxId (l.map itemWithPrice) := by
      rw [List.filter_eq_self]
      intro r hr
      have hmem : pairOfRow r ∈ (saleRowsFrom s.nextItemId s.nextSalesTxId
          (l.map itemWithPrice)).map pairOfRow := List.mem_map_of_mem pairOfRow hr
      rw [hrowpairs, ← hpairs] at hmem
      obtain ⟨x, hx, hxe⟩ := List.mem_map.mp hmem
      have hxid : x.med.id = r.medicine_id := congrArg Prod.fst hxe
      have hfindx := (validateSaleItems_ok_mem hval x hx).1
      rw [findMedicine_isSome_iff]
      show r.medicine_id ∈ (setSalesStatus s1 tx.id TxStatus.CANCELLED).medicines.map
        (fun m => m.id)
      have hids : (setSalesStatus s1 tx.id TxStatus.CANCELLED).medicines.map (fun m => m.id)
          = s.medicines.map (fun m => m.id) := by
        show s1.medicines.map (fun m => m.id) = s.medicines.map (fun m => m.id)
        rw [hs1']
        exact f6
      rw [hids, ← hxid]
      exact List.mem_map_of_mem (fun m => m.id) (findMedicine_mem hfindx)
    rw [hex, hrowpairs]
    rfl

theorem mkSaleTxDup_eq : mkSaleTx dupCart db0 lDup = saleTxDup := by
  simp [mkSaleTx, saleTxDup, totalAmount_lDup, dupCart, db0]
  norm_num

/-- C4 counterexample: for the duplicate-line cart (two lines of 6 units of
medicine 1, stock 10) the sale completes, yet cancelling it immediately —
with nothing else touching the medicine — leaves current_stock at 16, not
the pre-sale 10: the cancellation credits both recorded lines (12 units)
while the sale had debited only the last one (6 units). -/
theorem C4_counterexample :
    (salesCreateTransactionRoute dupCart db0).1 = Except.ok saleTxDup ∧
    stockOf db0 1 = some 10 ∧
    (cancelSalesTransaction 1 (salesCreateTransactionRoute dupCart db0).2).1 = true ∧
    stockOf (cancelSalesTransaction 1 (salesCreateTransactionRoute dupCart db0).2).2 1
      = some 16 := by
  rw [dupRoute_eq]
  have hf : findSalesTransaction (saleWriteState dupCart db0 lDup) 1 = some saleTxDup := by
    unfold findSalesTransaction
    rw [(saleWriteState_fields dupCart db0 lDup).1, mkSaleTxDup_eq]
    rfl
  have hcancel := cancel_build hf (by decide)
  refine ⟨rfl, by decide, ?_, ?_⟩
  · rw [hcancel]
  · rw [hcancel]
    decide

/-- C4 witness: the two-line distinct-medicine sale against db2, cancelled
immediately: counters return to their pre-sale values, the status flips to
CANCELLED, and one compensating IN row per line is appended. -/
theorem C4_witness :
    ∃ s2 : DB, cancelSalesTransaction (mkSaleTx distinctCart db2 lDist).id
        (saleWriteState distinctCart db2 lDist) = (true, s2) ∧
      txStatusOf s2 (mkSaleTx distinctCart db2 lDist).id = some TxStatus.CANCELLED ∧
      (∀ mid : Nat, stockOf s2 mid = stockOf db2 mid) ∧
      ((saleWriteState distinctCart db2 lDist).salesTransactionItems.filter
          (fun r => r.transaction_id == (mkSaleTx distinctCart db2 lDist).id)).map pairOfRow
        = distinctCart.items.map pairOfItem ∧
      s2.stockTransactions = (saleWriteState distinctCart db2 lDist).stockTransactions
        ++ inEntriesFrom (saleWriteState distinctCart db2 lDist).nextStockTxId
            (mkSaleTx distinctCart db2 lDist).id (distinctCart.items.map pairOfItem) :=
  C4_cancellation_reversible distinctCart db2 (mkSaleTx distinctCart db2 lDist)
    (saleWriteState distinctCart db2 lDist) (by decide) (by decide) distRoute_eq

/-- C10: cancelling a non-cancelled transaction some of whose item rows
reference medicines that no longer exist still flips the status to
CANCELLED and returns true; the vanished lines are skipped silently — no
compensating IN row and no counter change for them — while the lines whose
medicines survive get their IN rows appended, and no medicine row is
created for a vanished id. -/
theorem C10_cancel_skips_vanished (id : Nat) (s : DB) (tx : SalesTransaction)
    (hf : findSalesTransaction s id = some tx) (hns : tx.status ≠ TxStatus.CANCELLED) :
    ∃ s2 : DB, cancelSalesTransaction id s = (true, s2) ∧
      txStatusOf s2 id = some TxStatus.CANCELLED ∧
      s2.stockTransactions = s.stockTransactions
        ++ inEntriesFrom s.nextStockTxId id
            (((s.salesTransactionItems.filter (fun it => it.transaction_id == id)).filter
               (fun it => (findMedicine s it.medicine_id).isSome)).map pairOfRow) ∧
      s2.medicines.map (fun m => m.id) = s.medicines.map (fun m => m.id) ∧
      (∀ mid : Nat, findMedicine s mid = none → findMedicine s2 mid = none) := by
  have hcancel := cancel_build hf hns
  obtain ⟨r1, r2, r3, r4, r5, r6⟩ := restoreItems_spec id
    (s.salesTransactionItems.filter (fun it => it.transaction_id == id))
    (setSalesStatus s id TxStatus.CANCELLED)
  have hids : (restoreItems id (setSalesStatus s id TxStatus.CANCELLED)
      (s.salesTransactionItems.filter (fun it => it.transaction_id == id))).medicines.map
        (fun m => m.id) = s.medicines.map (fun m => m.id) := by
    rw [r1]
    rfl
  refine ⟨_, hcancel, cancel_true_status hcancel, ?_, hids, ?_⟩
  · rw [r6]
    have hpred : (s.salesTransactionItems.filter (fun it => it.transaction_id == id)).filter
        (fun it => (findMedicine (setSalesStatus s id TxStatus.CANCELLED) it.medicine_id).isSome)
          = (s.salesTransactionItems.filter (fun it => it.transaction_id == id)).filter
            (fun it => (findMedicine s it.medicine_id).isSome) :=
      List.filter_congr (fun x _ => rfl)
    rw [hpred]
    rfl
  · intro mid hnone
    exact findMedicine_none_of_ids hids hnone

/-- C10 witness: dbGone's completed sale references medicine 99 (vanished)
and medicine 1 (present); cancellation succeeds, marks the sale CANCELLED,
appends a single IN row for medicine 1 only, and resurrects no medicine
row. -/
theorem C10_witness :
    ∃ s2 : DB, cancelSalesTransaction 1 dbGone = (true, s2) ∧
      txStatusOf s2 1 = some TxStatus.CANCELLED ∧
      s2.stockTransactions = dbGone.stockTransactions
        ++ inEntriesFrom dbGone.nextStockTxId 1
            (((dbGone.salesTransactionItems.filter (fun it => it.transaction_id == 1)).filter
               (fun it => (findMedicine dbGone it.medicine_id).isSome)).map pairOfRow) ∧
      s2.medicines.map (fun m => m.id) = dbGone.medicines.map (fun m => m.id) ∧
      (∀ mid : Nat, findMedicine dbGone mid = none → findMedicine s2 mid = none) :=
  C10_cancel_skips_vanished 1 dbGone txCompleted (by decide) (by decide)
